import Mathlib

/-!
Verification development for the voxies-automated rental reconciliation bot.

The embedding follows the reconciliation variant of the source (the file
defining `processRentals`, `manageTrackedRentals`,
`discoverAndListUntrackedItems`, `waitForNftToBeUnbundled`, `cancelRental`
and `createVoxiesRental`).  Chain reads, transaction outcomes and wallet
enumeration results are supplied by an environment record (`PassEnv`), and
each pass returns the updated tracking store together with a trace of the
externally visible calls it made (`Action`).  JavaScript truthiness checks
on numbers (`!rentalInfo.loanId`, `existingRentalInfo?.price || DEFAULT`)
are modelled explicitly, treating `0` as falsy.
-/

namespace Voxies

/-! ## Configuration constants (from the CONFIG object) -/

def NFT_CONTRACT_ADDRESS : String := "0x8F8E18DbEbb8CA4fc2Bc7e3425FcdFd5264E33E8"

def VOXIE_CONTRACT_ADDRESS : String := "0xfbe3AB0cbFbD17d06bdD73aA3F55aaf038720F59"

def ZERO_ADDRESS : String := "0x0000000000000000000000000000000000000000"

def PRICE_INCREASE_PERCENT : ℚ := 11 / 10

def PRICE_DECREASE_PERCENT : ℚ := 9 / 10

def MIN_PRICE_FOR_DECREASE : Int := 3

def QUICK_RENTAL_MINUTES : Nat := 180

def PRICE_DROP_DAYS : Nat := 3

def MAX_RETRY_ATTEMPTS : Nat := 3

def DEFAULT_RENTAL_PRICE : Int := 5

/-! ## Data model -/

/-- The `RentalInfo` record persisted per token in `rental_prices.json`. -/
structure RentalInfo where
  price : Int
  nftAddress : String
  loanId : Option Nat := none
  bundleUUID : Option String := none
  timestamp : Option Nat := none
deriving Repr, DecidableEq

/-- The fields of the contract `Loan` struct that `manageTrackedRentals`
reads (`owner`, `loanee`, `startingTime`, `endTime`, `canceled`); the
unused fee/period/claimer fields are omitted. -/
structure ContractLoan where
  owner : String
  loanee : String
  startingTime : Nat
  endTime : Nat
  canceled : Bool
deriving Repr, DecidableEq

/-- The object returned by `createVoxiesRental`
(`{ loanId, uuid, txHash }`, each possibly `undefined`). -/
structure CreateOutcome where
  loanId : Option Nat
  uuid : Option String
  txHash : Option String
deriving Repr, DecidableEq

/-- Externally visible calls made during a pass, in order. -/
inductive Action where
  | cancelCall (loanId : Nat)
  | waitUnbundledCall (nftAddress : String) (tokenId : Nat)
  | createCall (nftAddress : String) (tokenId : Nat) (price : Int)
  | bundledSkipWarn (tokenId : Nat)
deriving Repr, DecidableEq

/-- The tracking store, `tokenId → RentalInfo`, in JS `Map` insertion
order. -/
abbrev Store := List (Nat × RentalInfo)

/-- `Map.get`: first (unique) binding of a key. -/
def lookupRental : Store → Nat → Option RentalInfo
  | [], _ => none
  | (k, v) :: rest, t => if k = t then some v else lookupRental rest t

/-- `Map.set`: replace an existing binding in place, else append. -/
def setRental : Store → Nat → RentalInfo → Store
  | [], t, v => [(t, v)]
  | (k, w) :: rest, t, v =>
      if k = t then (t, v) :: rest else (k, w) :: setRental rest t v

/-- JS truthiness of an optional number: `undefined` and `0` are falsy. -/
def natTruthy : Option Nat → Bool
  | none => false
  | some n => n != 0

/-- Lower-cased address comparison (`a.toLowerCase() === b.toLowerCase()`),
character by character. -/
def addrEq (a b : String) : Bool :=
  a.data.map Char.toLower == b.data.map Char.toLower

/-- `newLoanData?.loanId`. -/
def optLoanId : Option CreateOutcome → Option Nat
  | none => none
  | some d => d.loanId

/-! ## Pricing helpers (lines adapting the loan object) -/

/-- `isLoanExpired`: false when `endTime` is falsy, else
`Date.now() > endTime * 1000`. -/
def isLoanExpired (nowMs : Nat) (endTime : Nat) : Bool :=
  if endTime = 0 then false else decide (nowMs > endTime * 1000)

/-- `isLoanListedGreatThanDays`: false when `timestamp` is falsy, else
`Date.now() - timestamp * 1000 > 86400000 * days`. -/
def isLoanListedGreatThanDays (nowMs : Nat) (timestamp : Option Nat)
    (days : Nat) : Bool :=
  match timestamp with
  | none => false
  | some t =>
      if t = 0 then false
      else decide ((nowMs : Int) - (t : Int) * 1000 > 86400000 * (days : Int))

/-- `isLoanRentedQuickly`: requires both `timestamp` and `startingTime`
truthy, then `(startingTime - timestamp) < 60 * minutes` (seconds). -/
def isLoanRentedQuickly (timestamp startingTime : Option Nat)
    (minutes : Nat) : Bool :=
  match timestamp, startingTime with
  | some t, some s =>
      if t = 0 ∨ s = 0 then false
      else decide ((s : Int) - (t : Int) < 60 * (minutes : Int))
  | _, _ => false

/-- The integer significand of the IEEE-754 binary64 value of the literal
`1.1`: the double nearest `1.1` is `4953959590107546 / 2 ^ 52` (which is
`11 / 10 + 2 / (5 * 2 ^ 52)`, slightly above the exact `1.1`). -/
def DOUBLE_1_1_SIG : Nat := 4953959590107546

/-- Structural base-2 logarithm with explicit fuel (exact whenever
`n < 2 ^ fuel`), written this way so that it reduces in the kernel. -/
def log2Fuel : Nat → Nat → Nat
  | 0, _ => 0
  | fuel + 1, n => if n ≤ 1 then 0 else log2Fuel fuel (n / 2) + 1

/-- `⌊log₂ n⌋`, exact for every `n < 2 ^ 128` (far beyond any quantity a
price computation can reach). -/
def floorLog2 (n : Nat) : Nat := log2Fuel 128 n

/-- Round `n / 2 ^ s` to the nearest integer, ties to even: the rounding
step IEEE-754 applies to the scaled significand of a product. -/
def roundHalfEvenShift (n : Nat) (s : Nat) : Nat :=
  if s = 0 then n
  else
    let q := n / 2 ^ s
    let r := n % 2 ^ s
    let half := 2 ^ (s - 1)
    if r < half then q
    else if half < r then q + 1
    else if q % 2 = 0 then q else q + 1

/-- The binary64 product `p * 1.1` for `p ≥ 1`, as a pair `(m, e)` with
value `m / 2 ^ (52 - e)`: the exact product is `N / 2 ^ 52` with
`N = p * DOUBLE_1_1_SIG`, its binade exponent is `e = ⌊log₂ N⌋ - 52 ≥ 0`,
and IEEE-754 keeps the 53-bit significand `m` obtained by rounding
`N / 2 ^ e` half-to-even.  Exact for `p < 2 ^ 53` (every double that is an
integer price). -/
def jsMul11Parts (p : Nat) : Nat × Nat :=
  let N := p * DOUBLE_1_1_SIG
  let e := floorLog2 N - 52
  (roundHalfEvenShift N e, e)

/-- `Math.ceil(p * 1.1)` for a nonnegative integer price `p`, over binary64
doubles: the ceiling of `m / 2 ^ (52 - e)`. -/
def jsCeilMul11 (p : Nat) : Nat :=
  if p = 0 then 0
  else
    let me := jsMul11Parts p
    if 52 ≤ me.2 then me.1 * 2 ^ (me.2 - 52)
    else (me.1 + 2 ^ (52 - me.2) - 1) / 2 ^ (52 - me.2)

/-- `Math.floor(p * 1.1)` for a nonnegative integer price `p`, over
binary64 doubles (used for negative arguments of the ceiling, since
`Math.ceil (-x) = -Math.floor x` and double rounding is symmetric). -/
def jsFloorMul11 (p : Nat) : Nat :=
  if p = 0 then 0
  else
    let me := jsMul11Parts p
    if 52 ≤ me.2 then me.1 * 2 ^ (me.2 - 52)
    else me.1 / 2 ^ (52 - me.2)

/-- `Math.ceil(price * 1.1)` exactly as JavaScript computes it: the
product is taken over IEEE-754 binary64 doubles, where the literal `1.1`
is `11 / 10 + 2 / (5 * 2 ^ 52)`, so the rounded product can land just
above an exact multiple and the ceiling can exceed the exact
`⌈price * 11 / 10⌉` by one (e.g. `50 * 1.1 = 55.00000000000001`). -/
def increasePrice (price : Int) : Int :=
  if 0 ≤ price then (jsCeilMul11 price.toNat : Int)
  else -(jsFloorMul11 (-price).toNat : Int)

/-- `Math.floor(price * 0.9)`, over exact arithmetic. -/
def decreasePrice (price : Int) : Int :=
  Int.floor ((price : ℚ) * PRICE_DECREASE_PERCENT)

/-- One staleness-triggered re-pricing step: the decrease is applied only
under the guard `price > CONFIG.MIN_PRICE_FOR_DECREASE` of the stale
branch of `manageTrackedRentals`. -/
def staleDecreaseStep (price : Int) : Int :=
  if MIN_PRICE_FOR_DECREASE < price then decreasePrice price else price

/-! ## Environment: chain reads, transaction fates, wallet contents -/

/-- Oracle answers for one reconciliation pass.  `ownerOfNft`/`ownerOfVoxie`
return `none` when the `ownerOf` call throws; `loanItems` returns `none`
when the loan snapshot fetch throws; `cancelOk` is the boolean result of
`cancelRental` for a loan id; `polls` gives the sequence of `isBundled`
poll results observed by `waitForNftToBeUnbundled` before its timeout
(`none` = the poll call threw); `createResult` is the object returned by
`createVoxiesRental` for an (address, tokenId, price) submission;
`walletNft`/`walletVoxie` are the token ids successfully enumerated for
each collection. -/
structure PassEnv where
  signer : String
  nowMs : Nat
  ownerOfNft : Nat → Option String
  ownerOfVoxie : Nat → Option String
  isBundled : String → Nat → Bool
  loanItems : Nat → Option ContractLoan
  cancelOk : Nat → Bool
  polls : String → Nat → List (Option Bool)
  createResult : String → Nat → Int → Option CreateOutcome
  walletNft : List Nat
  walletVoxie : List Nat

/-- `waitForNftToBeUnbundled`: poll until an `isBundled` call returns
`false`; erroring polls are retried; an exhausted poll list is the
timeout, returning `false`. -/
def waitForNftToBeUnbundled (polls : List (Option Bool)) : Bool :=
  polls.any (fun p => p == some false)

/-- The ownership probe of CASE 1: try `nftContract.ownerOf`, fall back to
`voxieContract.ownerOf`, giving the owner and the contract address. -/
def probeOwner (env : PassEnv) (tokenId : Nat) : Option (String × String) :=
  match env.ownerOfNft tokenId with
  | some owner => some (owner, NFT_CONTRACT_ADDRESS)
  | none =>
      match env.ownerOfVoxie tokenId with
      | some owner => some (owner, VOXIE_CONTRACT_ADDRESS)
      | none => none

/-! ## manageTrackedRentals -/

/-- CASE 1 of `manageTrackedRentals`: the record has no (truthy) `loanId`. -/
def trackedNoLoan (env : PassEnv) (tokenId : Nat) (r : RentalInfo) :
    RentalInfo × List Action :=
  match probeOwner env tokenId with
  | none => (r, [])
  | some (owner, contractAddress) =>
      if addrEq owner env.signer then
        if env.isBundled contractAddress tokenId then
          (r, [Action.bundledSkipWarn tokenId])
        else
          let r1 := { r with nftAddress := contractAddress }
          let price := r1.price
          match env.createResult contractAddress tokenId price with
          | some newLoanData =>
              ({ r1 with
                  loanId := newLoanData.loanId
                  bundleUUID := newLoanData.uuid
                  timestamp := some (env.nowMs / 1000) },
               [Action.createCall contractAddress tokenId price])
          | none => (r1, [Action.createCall contractAddress tokenId price])
      else (r, [])

/-- The shared cancel → wait-for-unbundling → relist sequence of the
expired and stale branches of CASE 2. -/
def cancelAndRelist (env : PassEnv) (tokenId : Nat) (r : RentalInfo)
    (loanId : Nat) (newPrice : Int) : RentalInfo × List Action :=
  if env.cancelOk loanId then
    if waitForNftToBeUnbundled (env.polls r.nftAddress tokenId) then
      let newLoanData := env.createResult r.nftAddress tokenId newPrice
      let acts := [Action.cancelCall loanId,
                   Action.waitUnbundledCall r.nftAddress tokenId,
                   Action.createCall r.nftAddress tokenId newPrice]
      if natTruthy (optLoanId newLoanData) then
        match newLoanData with
        | some d =>
            ({ r with
                price := newPrice
                loanId := d.loanId
                bundleUUID := d.uuid
                timestamp := some (env.nowMs / 1000) }, acts)
        | none => ({ r with loanId := none }, acts)
      else ({ r with loanId := none }, acts)
    else
      ({ r with loanId := none },
       [Action.cancelCall loanId,
        Action.waitUnbundledCall r.nftAddress tokenId])
  else (r, [Action.cancelCall loanId])

/-- CASE 2 of `manageTrackedRentals`: the record has a truthy `loanId`. -/
def trackedWithLoan (env : PassEnv) (tokenId : Nat) (r : RentalInfo)
    (loanId : Nat) : RentalInfo × List Action :=
  match env.loanItems loanId with
  | none => ({ r with loanId := none }, [])
  | some loan =>
      if loan.canceled then ({ r with loanId := none }, [])
      else if ¬ addrEq loan.owner env.signer then
        ({ r with loanId := none }, [])
      else
        let isRented := loan.loanee ≠ ZERO_ADDRESS
        let price := r.price
        let helperTimestamp := r.timestamp
        let helperStarting :=
          if isRented then some loan.startingTime else none
        if isLoanExpired env.nowMs loan.endTime then
          let newPrice :=
            if isLoanRentedQuickly helperTimestamp helperStarting
                QUICK_RENTAL_MINUTES
            then increasePrice price else price
          cancelAndRelist env tokenId r loanId newPrice
        else if ¬ isRented ∧
            isLoanListedGreatThanDays env.nowMs helperTimestamp
              PRICE_DROP_DAYS = true ∧
            MIN_PRICE_FOR_DECREASE < price then
          cancelAndRelist env tokenId r loanId (decreasePrice price)
        else (r, [])

/-- Processing of one `(tokenId, rentalInfo)` entry of the tracking map:
the `!rentalInfo.loanId` truthiness test routes to CASE 1 or CASE 2. -/
def processTrackedRecord (env : PassEnv) (tokenId : Nat) (r : RentalInfo) :
    RentalInfo × List Action :=
  match r.loanId with
  | none => trackedNoLoan env tokenId r
  | some loanId =>
      if loanId = 0 then trackedNoLoan env tokenId r
      else trackedWithLoan env tokenId r loanId

/-- `manageTrackedRentals`: process every tracked entry in order.  Entries
are only field-mutated, never added or removed. -/
def manageTrackedRentals (env : PassEnv) : Store → Store × List Action
  | [] => ([], [])
  | (t, r) :: rest =>
      let step := processTrackedRecord env t r
      let restResult := manageTrackedRentals env rest
      ((t, step.1) :: restResult.1, step.2 ++ restResult.2)

/-! ## discoverAndListUntrackedItems -/

/-- The listing price used by discovery:
`existingRentalInfo?.price || CONFIG.DEFAULT_RENTAL_PRICE` (a falsy stored
price falls back to the default). -/
def discoveryPrice (existing : Option RentalInfo) : Int :=
  match existing with
  | some r => if r.price = 0 then DEFAULT_RENTAL_PRICE else r.price
  | none => DEFAULT_RENTAL_PRICE

/-- Handling of one enumerated wallet token inside the discovery loop. -/
def discoverToken (env : PassEnv) (address : String) (s : Store)
    (tokenId : Nat) : Store × List Action :=
  let existing := lookupRental s tokenId
  let isUntrackedOrMistracked :=
    match existing with
    | none => true
    | some r => !(natTruthy r.loanId) || decide (r.nftAddress ≠ address)
  if isUntrackedOrMistracked then
    if env.isBundled address tokenId then
      (s, [Action.bundledSkipWarn tokenId])
    else
      let price := discoveryPrice existing
      match env.createResult address tokenId price with
      | some newLoanData =>
          (setRental s tokenId
             { price := price
               nftAddress := address
               loanId := newLoanData.loanId
               bundleUUID := newLoanData.uuid
               timestamp := some (env.nowMs / 1000) },
           [Action.createCall address tokenId price])
      | none => (s, [Action.createCall address tokenId price])
  else (s, [])

/-- The per-collection discovery loop over enumerated wallet tokens. -/
def discoverList (env : PassEnv) (address : String) :
    Store → List Nat → Store × List Action
  | s, [] => (s, [])
  | s, t :: ts =>
      let step := discoverToken env address s t
      let restResult := discoverList env address step.1 ts
      (restResult.1, step.2 ++ restResult.2)

/-- `discoverAndListUntrackedItems`: scan the NFT collection, then the
Voxie collection. -/
def discoverAndListUntrackedItems (env : PassEnv) (s : Store) :
    Store × List Action :=
  let nftResult := discoverList env NFT_CONTRACT_ADDRESS s env.walletNft
  let voxieResult :=
    discoverList env VOXIE_CONTRACT_ADDRESS nftResult.1 env.walletVoxie
  (voxieResult.1, nftResult.2 ++ voxieResult.2)

/-- `processRentals`: one full reconciliation pass (the file save is
persistence I/O, out of the model). -/
def processRentals (env : PassEnv) (s : Store) : Store × List Action :=
  let tracked := manageTrackedRentals env s
  let discovered := discoverAndListUntrackedItems env tracked.1
  (discovered.1, tracked.2 ++ discovered.2)

/-- Number of create-listing calls for the asset `(address, tokenId)` in a
trace. -/
def countCreate (trace : List Action) (address : String) (tokenId : Nat) :
    Nat :=
  trace.countP (fun act =>
    match act with
    | Action.createCall a t _ => a == address && t == tokenId
    | _ => false)

/-! ## Transaction submitter: `createVoxiesRental` and `cancelRental` -/

/-- A receipt log entry as seen by the event scan: either
`iface.parseLog` throws / returns null, or it decodes to an event with a
name and a numeric first argument. -/
inductive RLog where
  | undecodable
  | decoded (name : String) (arg0 : Nat)
deriving Repr, DecidableEq

/-- A transaction receipt: its status (`1` = success) and its logs. -/
structure Receipt where
  status : Nat
  logs : List RLog
deriving Repr, DecidableEq

/-- The fate of one attempt of `createVoxiesRental`'s retry loop:
an exception reaching the outer catch (classified as an RPC timeout or
not, carrying the transaction hash if the send had completed), a receipt
wait timeout whose manual receipt fetch returned null, or an obtained
receipt (from the wait or from the manual fetch). -/
inductive AttemptResult where
  | thrown (isTimeout : Bool) (sentHash : Option String)
  | waitTimeoutNoReceipt (hash : String)
  | gotReceipt (hash : String) (receipt : Receipt)
deriving Repr, DecidableEq

/-- The event scan over receipt logs: the first log decoding to a
`LoanableItemCreated` event yields the new loan id. -/
def firstLoanId : List RLog → Option Nat
  | [] => none
  | RLog.undecodable :: rest => firstLoanId rest
  | RLog.decoded name arg0 :: rest =>
      if name = "LoanableItemCreated" then some arg0 else firstLoanId rest

/-- The `txHash` carried across attempts: a hash from a completed send
replaces the previous one. -/
def orTxHash (sentHash txHash0 : Option String) : Option String :=
  match sentHash with
  | some h => some h
  | none => txHash0

/-- The retry loop of `createVoxiesRental`, with `remaining` attempts
left, currently at attempt number `attempt`, and the `uuid`/`txHash`
variables carried across attempts.  A fresh uuid is generated at the
start of each attempt (in the source the `getFeeData` call precedes the
uuid generation and could fail before it; the uuid value is never
inspected by callers, so that window is not distinguished here). -/
def createLoop (attemptResult : Nat → AttemptResult)
    (uuidGen : Nat → String) :
    Nat → Nat → Option String → Option String → Option CreateOutcome
  | 0, _, uuid, txHash => some ⟨none, uuid, txHash⟩
  | remaining + 1, attempt, _, txHash0 =>
      let uuid := some (uuidGen attempt)
      match attemptResult attempt with
      | AttemptResult.thrown _ sentHash =>
          createLoop attemptResult uuidGen remaining (attempt + 1) uuid
            (orTxHash sentHash txHash0)
      | AttemptResult.waitTimeoutNoReceipt hash =>
          if remaining = 0 then some ⟨none, uuid, some hash⟩
          else createLoop attemptResult uuidGen remaining (attempt + 1)
            uuid (some hash)
      | AttemptResult.gotReceipt hash receipt =>
          if receipt.status ≠ 1 then
            createLoop attemptResult uuidGen remaining (attempt + 1) uuid
              (some hash)
          else if receipt.logs = [] then
            createLoop attemptResult uuidGen remaining (attempt + 1) uuid
              (some hash)
          else
            match firstLoanId receipt.logs with
            | some lid => some ⟨some lid, uuid, some hash⟩
            | none =>
                createLoop attemptResult uuidGen remaining (attempt + 1)
                  uuid (some hash)

/-- `createVoxiesRental`: up to `MAX_RETRY_ATTEMPTS` attempts starting at
attempt 1; every exit path returns an object (the TS signature also
admits `undefined`, modelled by the `Option`). -/
def createVoxiesRental (attemptResult : Nat → AttemptResult)
    (uuidGen : Nat → String) : Option CreateOutcome :=
  createLoop attemptResult uuidGen MAX_RETRY_ATTEMPTS 1 none none

/-- An attempt that the loop treats as failed: an exception, an
unobtainable receipt, a reverted receipt, or a successful receipt without
a decodable `LoanableItemCreated` event. -/
def attemptFailed : AttemptResult → Bool
  | AttemptResult.thrown _ _ => true
  | AttemptResult.waitTimeoutNoReceipt _ => true
  | AttemptResult.gotReceipt _ receipt =>
      decide (receipt.status ≠ 1) || (firstLoanId receipt.logs).isNone

/-- The fate of one submission of `cancelRental`'s transaction lifecycle
(fee query, gas estimate, send, confirmation wait). -/
inductive TxStep where
  | feeDataFail
  | estimateFail
  | sendFail
  | waitFail
  | confirmed
deriving Repr, DecidableEq

/-- `cancelRental`: a single try/catch around one submission, returning
`true` on a confirmed cancellation and `false` on any error.  The
environment is indexed by attempt number to align with
`createVoxiesRental`; the source has no retry loop here, so only
attempt 1 is ever consulted. -/
def cancelRental (step : Nat → TxStep) : Bool :=
  match step 1 with
  | TxStep.confirmed => true
  | _ => false

/-! ## Branch characterization lemmas -/

theorem processTrackedRecord_eq_noLoan (env : PassEnv) (t : Nat)
    (r : RentalInfo) (h : natTruthy r.loanId = false) :
    processTrackedRecord env t r = trackedNoLoan env t r := by
  cases hl : r.loanId with
  | none => simp [processTrackedRecord, hl]
  | some lid =>
      simp [natTruthy, hl] at h
      simp [processTrackedRecord, hl, h]

theorem processTrackedRecord_eq_withLoan (env : PassEnv) (t : Nat)
    (r : RentalInfo) (lid : Nat) (h : r.loanId = some lid)
    (h0 : lid ≠ 0) :
    processTrackedRecord env t r = trackedWithLoan env t r lid := by
  simp [processTrackedRecord, h, h0]

theorem trackedWithLoan_fetchFail (env : PassEnv) (t : Nat)
    (r : RentalInfo) (lid : Nat) (h : env.loanItems lid = none) :
    trackedWithLoan env t r lid = ({ r with loanId := none }, []) := by
  simp [trackedWithLoan, h]

theorem trackedWithLoan_canceled (env : PassEnv) (t : Nat)
    (r : RentalInfo) (lid : Nat) (loan : ContractLoan)
    (h : env.loanItems lid = some loan) (hc : loan.canceled = true) :
    trackedWithLoan env t r lid = ({ r with loanId := none }, []) := by
  simp [trackedWithLoan, h, hc]

theorem trackedWithLoan_foreignOwner (env : PassEnv) (t : Nat)
    (r : RentalInfo) (lid : Nat) (loan : ContractLoan)
    (h : env.loanItems lid = some loan) (hc : loan.canceled = false)
    (ho : addrEq loan.owner env.signer = false) :
    trackedWithLoan env t r lid = ({ r with loanId := none }, []) := by
  simp [trackedWithLoan, h, hc, ho]

theorem trackedWithLoan_expired (env : PassEnv) (t : Nat)
    (r : RentalInfo) (lid : Nat) (loan : ContractLoan)
    (h : env.loanItems lid = some loan) (hc : loan.canceled = false)
    (ho : addrEq loan.owner env.signer = true)
    (he : isLoanExpired env.nowMs loan.endTime = true) :
    trackedWithLoan env t r lid =
      cancelAndRelist env t r lid
        (if isLoanRentedQuickly r.timestamp
            (if loan.loanee ≠ ZERO_ADDRESS then some loan.startingTime
             else none) QUICK_RENTAL_MINUTES
         then increasePrice r.price else r.price) := by
  simp [trackedWithLoan, h, hc, ho, he]

theorem trackedWithLoan_stale (env : PassEnv) (t : Nat)
    (r : RentalInfo) (lid : Nat) (loan : ContractLoan)
    (h : env.loanItems lid = some loan) (hc : loan.canceled = false)
    (ho : addrEq loan.owner env.signer = true)
    (he : isLoanExpired env.nowMs loan.endTime = false)
    (hr : loan.loanee = ZERO_ADDRESS)
    (hs : isLoanListedGreatThanDays env.nowMs r.timestamp
      PRICE_DROP_DAYS = true)
    (hp : MIN_PRICE_FOR_DECREASE < r.price) :
    trackedWithLoan env t r lid =
      cancelAndRelist env t r lid (decreasePrice r.price) := by
  simp [trackedWithLoan, h, hc, ho, he, hr, hs, hp]

theorem trackedWithLoan_quiet (env : PassEnv) (t : Nat)
    (r : RentalInfo) (lid : Nat) (loan : ContractLoan)
    (h : env.loanItems lid = some loan) (hc : loan.canceled = false)
    (ho : addrEq loan.owner env.signer = true)
    (he : isLoanExpired env.nowMs loan.endTime = false)
    (hq : loan.loanee ≠ ZERO_ADDRESS ∨
      isLoanListedGreatThanDays env.nowMs r.timestamp
        PRICE_DROP_DAYS = false ∨
      r.price ≤ MIN_PRICE_FOR_DECREASE) :
    trackedWithLoan env t r lid = (r, []) := by
  rcases hq with hq | hq | hq
  · simp [trackedWithLoan, h, hc, ho, he, hq]
  · simp [trackedWithLoan, h, hc, ho, he, hq]
  · have : ¬ MIN_PRICE_FOR_DECREASE < r.price := not_lt.mpr hq
    simp [trackedWithLoan, h, hc, ho, he, this]

theorem cancelAndRelist_cancelFail (env : PassEnv) (t : Nat)
    (r : RentalInfo) (lid : Nat) (p : Int)
    (h : env.cancelOk lid = false) :
    cancelAndRelist env t r lid p = (r, [Action.cancelCall lid]) := by
  simp [cancelAndRelist, h]

theorem cancelAndRelist_waitFail (env : PassEnv) (t : Nat)
    (r : RentalInfo) (lid : Nat) (p : Int)
    (h : env.cancelOk lid = true)
    (hw : waitForNftToBeUnbundled (env.polls r.nftAddress t) = false) :
    cancelAndRelist env t r lid p =
      ({ r with loanId := none },
       [Action.cancelCall lid,
        Action.waitUnbundledCall r.nftAddress t]) := by
  simp [cancelAndRelist, h, hw]

theorem cancelAndRelist_relistFail (env : PassEnv) (t : Nat)
    (r : RentalInfo) (lid : Nat) (p : Int)
    (h : env.cancelOk lid = true)
    (hw : waitForNftToBeUnbundled (env.polls r.nftAddress t) = true)
    (hf : natTruthy (optLoanId (env.createResult r.nftAddress t p)) =
      false) :
    cancelAndRelist env t r lid p =
      ({ r with loanId := none },
       [Action.cancelCall lid,
        Action.waitUnbundledCall r.nftAddress t,
        Action.createCall r.nftAddress t p]) := by
  simp only [cancelAndRelist, h, hw, hf, if_true, if_false,
    Bool.false_eq_true, ite_false, ite_true]

theorem cancelAndRelist_success (env : PassEnv) (t : Nat)
    (r : RentalInfo) (lid : Nat) (p : Int) (d : CreateOutcome)
    (h : env.cancelOk lid = true)
    (hw : waitForNftToBeUnbundled (env.polls r.nftAddress t) = true)
    (hd : env.createResult r.nftAddress t p = some d)
    (ht : natTruthy d.loanId = true) :
    cancelAndRelist env t r lid p =
      ({ r with
          price := p
          loanId := d.loanId
          bundleUUID := d.uuid
          timestamp := some (env.nowMs / 1000) },
       [Action.cancelCall lid,
        Action.waitUnbundledCall r.nftAddress t,
        Action.createCall r.nftAddress t p]) := by
  simp [cancelAndRelist, h, hw, hd, optLoanId, ht]

theorem trackedNoLoan_noOwner (env : PassEnv) (t : Nat) (r : RentalInfo)
    (h : probeOwner env t = none) :
    trackedNoLoan env t r = (r, []) := by
  simp [trackedNoLoan, h]

theorem trackedNoLoan_foreignOwner (env : PassEnv) (t : Nat)
    (r : RentalInfo) (owner addr : String)
    (h : probeOwner env t = some (owner, addr))
    (ho : addrEq owner env.signer = false) :
    trackedNoLoan env t r = (r, []) := by
  simp [trackedNoLoan, h, ho]

theorem trackedNoLoan_bundled (env : PassEnv) (t : Nat) (r : RentalInfo)
    (owner addr : String) (h : probeOwner env t = some (owner, addr))
    (ho : addrEq owner env.signer = true)
    (hb : env.isBundled addr t = true) :
    trackedNoLoan env t r = (r, [Action.bundledSkipWarn t]) := by
  simp [trackedNoLoan, h, ho, hb]

theorem trackedNoLoan_creates (env : PassEnv) (t : Nat) (r : RentalInfo)
    (owner addr : String) (d : CreateOutcome)
    (h : probeOwner env t = some (owner, addr))
    (ho : addrEq owner env.signer = true)
    (hb : env.isBundled addr t = false)
    (hd : env.createResult addr t r.price = some d) :
    trackedNoLoan env t r =
      ({ r with
          nftAddress := addr
          loanId := d.loanId
          bundleUUID := d.uuid
          timestamp := some (env.nowMs / 1000) },
       [Action.createCall addr t r.price]) := by
  simp [trackedNoLoan, h, ho, hb, hd]

/-! ## Store lemmas -/

theorem lookupRental_setRental_ne (s : Store) (u t : Nat) (v : RentalInfo)
    (h : u ≠ t) : lookupRental (setRental s u v) t = lookupRental s t := by
  induction s with
  | nil => simp [setRental, lookupRental, h]
  | cons kv rest ih =>
      obtain ⟨k, w⟩ := kv
      by_cases hk : k = u
      · subst hk
        simp [setRental, lookupRental, h]
      · simp [setRental, hk, lookupRental, ih]

theorem lookupRental_of_mem (store : Store) (t : Nat) (r : RentalInfo)
    (hnd : (store.map Prod.fst).Nodup) (hm : (t, r) ∈ store) :
    lookupRental store t = some r := by
  induction store with
  | nil => simp at hm
  | cons kv rest ih =>
      obtain ⟨k, w⟩ := kv
      simp only [List.map_cons, List.nodup_cons] at hnd
      rcases List.mem_cons.mp hm with h | h
      · obtain ⟨hk, hw⟩ := Prod.mk.injEq .. ▸ h
        injection h with h1 h2
        subst h1; subst h2
        simp [lookupRental]
      · have hk : k ≠ t := by
          intro he
          subst he
          exact hnd.1 (List.mem_map.mpr ⟨(k, r), h, rfl⟩)
        simp [lookupRental, hk, ih hnd.2 h]

/-! ## Trace lemmas for the tracked stage -/

theorem trackedNoLoan_createFail (env : PassEnv) (t : Nat)
    (r : RentalInfo) (owner addr : String)
    (h : probeOwner env t = some (owner, addr))
    (ho : addrEq owner env.signer = true)
    (hb : env.isBundled addr t = false)
    (hd : env.createResult addr t r.price = none) :
    trackedNoLoan env t r =
      ({ r with nftAddress := addr },
       [Action.createCall addr t r.price]) := by
  simp [trackedNoLoan, h, ho, hb, hd]

theorem trackedNoLoan_trace_spec (env : PassEnv) (t : Nat)
    (r : RentalInfo) :
    (trackedNoLoan env t r = (r, []) ∨
      trackedNoLoan env t r = (r, [Action.bundledSkipWarn t])) ∨
    ∃ owner addr, probeOwner env t = some (owner, addr) ∧
      addrEq owner env.signer = true ∧ env.isBundled addr t = false ∧
      (trackedNoLoan env t r).2 = [Action.createCall addr t r.price] := by
  cases hp : probeOwner env t with
  | none => exact Or.inl (Or.inl (trackedNoLoan_noOwner env t r hp))
  | some oc =>
      obtain ⟨owner, addr⟩ := oc
      by_cases ho : addrEq owner env.signer = true
      · by_cases hb : env.isBundled addr t = true
        · exact Or.inl (Or.inr (trackedNoLoan_bundled env t r owner addr
            hp ho hb))
        · refine Or.inr ⟨owner, addr, rfl, ho, by simpa using hb, ?_⟩
          cases hd : env.createResult addr t r.price with
          | none =>
              rw [trackedNoLoan_createFail env t r owner addr hp ho
                (by simpa using hb) hd]
          | some d =>
              rw [trackedNoLoan_creates env t r owner addr d hp ho
                (by simpa using hb) hd]
      · exact Or.inl (Or.inl (trackedNoLoan_foreignOwner env t r owner
          addr hp (by simpa using ho)))

theorem cancelAndRelist_trace_spec (env : PassEnv) (t : Nat)
    (r : RentalInfo) (lid : Nat) (np : Int) :
    (env.cancelOk lid = false ∧
      cancelAndRelist env t r lid np = (r, [Action.cancelCall lid])) ∨
    (env.cancelOk lid = true ∧
      waitForNftToBeUnbundled (env.polls r.nftAddress t) = false ∧
      cancelAndRelist env t r lid np =
        ({ r with loanId := none },
         [Action.cancelCall lid,
          Action.waitUnbundledCall r.nftAddress t])) ∨
    (env.cancelOk lid = true ∧
      waitForNftToBeUnbundled (env.polls r.nftAddress t) = true ∧
      (cancelAndRelist env t r lid np).2 =
        [Action.cancelCall lid,
         Action.waitUnbundledCall r.nftAddress t,
         Action.createCall r.nftAddress t np]) := by
  by_cases hc : env.cancelOk lid = true
  · by_cases hw : waitForNftToBeUnbundled (env.polls r.nftAddress t) = true
    · refine Or.inr (Or.inr ⟨hc, hw, ?_⟩)
      by_cases hf :
          natTruthy (optLoanId (env.createResult r.nftAddress t np)) = true
      · cases hd : env.createResult r.nftAddress t np with
        | none => rw [hd] at hf; simp [optLoanId, natTruthy] at hf
        | some d =>
            rw [cancelAndRelist_success env t r lid np d hc hw hd
              (by rw [hd] at hf; simpa [optLoanId] using hf)]
      · rw [cancelAndRelist_relistFail env t r lid np hc hw
          (by simpa using hf)]
    · exact Or.inr (Or.inl ⟨hc, by simpa using hw,
        cancelAndRelist_waitFail env t r lid np hc (by simpa using hw)⟩)
  · exact Or.inl ⟨by simpa using hc,
      cancelAndRelist_cancelFail env t r lid np (by simpa using hc)⟩

theorem trackedWithLoan_trace_spec (env : PassEnv) (t : Nat)
    (r : RentalInfo) (lid : Nat) :
    (trackedWithLoan env t r lid).2 = [] ∨
    ∃ np, trackedWithLoan env t r lid = cancelAndRelist env t r lid np := by
  cases hl : env.loanItems lid with
  | none => exact Or.inl (by rw [trackedWithLoan_fetchFail env t r lid hl])
  | some loan =>
      by_cases hc : loan.canceled = true
      · exact Or.inl (by
          rw [trackedWithLoan_canceled env t r lid loan hl hc])
      · by_cases ho : addrEq loan.owner env.signer = true
        · by_cases he : isLoanExpired env.nowMs loan.endTime = true
          · exact Or.inr ⟨_, trackedWithLoan_expired env t r lid loan hl
              (by simpa using hc) ho he⟩
          · by_cases hr : loan.loanee = ZERO_ADDRESS
            · by_cases hs : isLoanListedGreatThanDays env.nowMs
                  r.timestamp PRICE_DROP_DAYS = true
              · by_cases hpx : MIN_PRICE_FOR_DECREASE < r.price
                · exact Or.inr ⟨_, trackedWithLoan_stale env t r lid loan
                    hl (by simpa using hc) ho (by simpa using he) hr hs
                    hpx⟩
                · exact Or.inl (by
                    rw [trackedWithLoan_quiet env t r lid loan hl
                      (by simpa using hc) ho (by simpa using he)
                      (Or.inr (Or.inr (not_lt.mp hpx)))])
              · exact Or.inl (by
                  rw [trackedWithLoan_quiet env t r lid loan hl
                    (by simpa using hc) ho (by simpa using he)
                    (Or.inr (Or.inl (by simpa using hs)))])
            · exact Or.inl (by
                rw [trackedWithLoan_quiet env t r lid loan hl
                  (by simpa using hc) ho (by simpa using he)
                  (Or.inl hr)])
        · exact Or.inl (by
            rw [trackedWithLoan_foreignOwner env t r lid loan hl
              (by simpa using hc) (by simpa using ho)])

theorem trackedNoLoan_create_token (env : PassEnv) (t : Nat)
    (r : RentalInfo) (a : String) (t' : Nat) (p : Int)
    (h : Action.createCall a t' p ∈ (trackedNoLoan env t r).2) :
    t' = t := by
  rcases trackedNoLoan_trace_spec env t r with (hs | hs) | ⟨o, ad, _, _, _, hs⟩
  · rw [hs] at h; simp at h
  · rw [hs] at h; simp at h
  · rw [hs] at h
    simp at h
    exact h.2.1

theorem cancelAndRelist_create_token (env : PassEnv) (t : Nat)
    (r : RentalInfo) (lid : Nat) (np : Int) (a : String) (t' : Nat)
    (p : Int)
    (h : Action.createCall a t' p ∈ (cancelAndRelist env t r lid np).2) :
    t' = t := by
  rcases cancelAndRelist_trace_spec env t r lid np with
    ⟨_, hs⟩ | ⟨_, _, hs⟩ | ⟨_, _, hs⟩
  · rw [hs] at h; simp at h
  · rw [hs] at h; simp at h
  · rw [hs] at h
    simp at h
    exact h.2.1

theorem trackedWithLoan_create_token (env : PassEnv) (t : Nat)
    (r : RentalInfo) (lid : Nat) (a : String) (t' : Nat) (p : Int)
    (h : Action.createCall a t' p ∈ (trackedWithLoan env t r lid).2) :
    t' = t := by
  rcases trackedWithLoan_trace_spec env t r lid with hs | ⟨np, hs⟩
  · rw [hs] at h; simp at h
  · rw [hs] at h
    exact cancelAndRelist_create_token env t r lid np a t' p h

theorem processTrackedRecord_create_token (env : PassEnv) (t : Nat)
    (r : RentalInfo) (a : String) (t' : Nat) (p : Int)
    (h : Action.createCall a t' p ∈ (processTrackedRecord env t r).2) :
    t' = t := by
  unfold processTrackedRecord at h
  split at h
  · exact trackedNoLoan_create_token env t r a t' p h
  · split at h
    · exact trackedNoLoan_create_token env t r a t' p h
    · exact trackedWithLoan_create_token env t r _ a t' p h

theorem mem_manageTrackedRentals_trace (env : PassEnv) (store : Store)
    (act : Action) (h : act ∈ (manageTrackedRentals env store).2) :
    ∃ t r, (t, r) ∈ store ∧ act ∈ (processTrackedRecord env t r).2 := by
  induction store with
  | nil => simp [manageTrackedRentals] at h
  | cons kv rest ih =>
      obtain ⟨t, r⟩ := kv
      simp only [manageTrackedRentals, List.mem_append] at h
      rcases h with h | h
      · exact ⟨t, r, List.mem_cons_self _ _, h⟩
      · obtain ⟨t', r', hm, ha⟩ := ih h
        exact ⟨t', r', List.mem_cons_of_mem _ hm, ha⟩

theorem manageTrackedRentals_id (env : PassEnv) (store : Store)
    (h : ∀ t r, (t, r) ∈ store → (processTrackedRecord env t r).1 = r) :
    (manageTrackedRentals env store).1 = store := by
  induction store with
  | nil => rfl
  | cons kv rest ih =>
      obtain ⟨t, r⟩ := kv
      simp only [manageTrackedRentals]
      rw [h t r (List.mem_cons_self _ _),
        ih fun t' r' hm => h t' r' (List.mem_cons_of_mem _ hm)]

theorem lookupRental_manageTrackedRentals (env : PassEnv) (store : Store)
    (t : Nat) (r : RentalInfo) (hnd : (store.map Prod.fst).Nodup)
    (hm : (t, r) ∈ store) :
    lookupRental (manageTrackedRentals env store).1 t =
      some (processTrackedRecord env t r).1 := by
  induction store with
  | nil => simp at hm
  | cons kv rest ih =>
      obtain ⟨k, w⟩ := kv
      simp only [List.map_cons, List.nodup_cons] at hnd
      rcases List.mem_cons.mp hm with h | h
      · injection h with h1 h2
        subst h1; subst h2
        simp [manageTrackedRentals, lookupRental]
      · have hk : k ≠ t := by
          intro he
          subst he
          exact hnd.1 (List.mem_map.mpr ⟨(k, r), h, rfl⟩)
        simp only [manageTrackedRentals, lookupRental, hk, if_false]
        exact ih hnd.2 h

theorem lookupRental_manageTrackedRentals_none (env : PassEnv)
    (store : Store) (t : Nat) (h : lookupRental store t = none) :
    lookupRental (manageTrackedRentals env store).1 t = none := by
  induction store with
  | nil => rfl
  | cons kv rest ih =>
      obtain ⟨k, w⟩ := kv
      simp only [lookupRental] at h
      by_cases hk : k = t
      · simp [hk] at h
      · simp only [lookupRental, hk, if_false] at h
        simp only [manageTrackedRentals, lookupRental, hk, if_false]
        exact ih h

/-! ## countCreate lemmas -/

theorem countCreate_append (l1 l2 : List Action) (a : String) (t : Nat) :
    countCreate (l1 ++ l2) a t = countCreate l1 a t + countCreate l2 a t :=
  List.countP_append _ _ _

theorem countCreate_eq_zero (l : List Action) (a : String) (t : Nat)
    (h : ∀ a' t' p, Action.createCall a' t' p ∈ l → ¬(a' = a ∧ t' = t)) :
    countCreate l a t = 0 := by
  apply List.countP_eq_zero.mpr
  intro act hact
  cases act with
  | createCall a' t' p =>
      have := h a' t' p hact
      simp only [Bool.and_eq_true, beq_iff_eq]
      intro hcon
      exact this ⟨hcon.1, hcon.2⟩
  | cancelCall _ => simp
  | waitUnbundledCall _ _ => simp
  | bundledSkipWarn _ => simp

theorem countCreate_manage_not_mem (env : PassEnv) (store : Store)
    (a : String) (t : Nat) (h : t ∉ store.map Prod.fst) :
    countCreate (manageTrackedRentals env store).2 a t = 0 := by
  apply countCreate_eq_zero
  intro a' t' p hmem hcon
  obtain ⟨tk, rk, hk, hak⟩ := mem_manageTrackedRentals_trace env store _ hmem
  have : t' = tk := processTrackedRecord_create_token env tk rk a' t' p hak
  subst this
  exact h (hcon.2 ▸ List.mem_map.mpr ⟨(t', rk), hk, rfl⟩)

theorem countCreate_manageTrackedRentals (env : PassEnv) (store : Store)
    (a : String) (t : Nat) (r : RentalInfo)
    (hnd : (store.map Prod.fst).Nodup) (hm : (t, r) ∈ store) :
    countCreate (manageTrackedRentals env store).2 a t =
      countCreate (processTrackedRecord env t r).2 a t := by
  induction store with
  | nil => simp at hm
  | cons kv rest ih =>
      obtain ⟨k, w⟩ := kv
      simp only [List.map_cons, List.nodup_cons] at hnd
      rcases List.mem_cons.mp hm with h | h
      · injection h with h1 h2
        subst h1; subst h2
        simp only [manageTrackedRentals, countCreate_append]
        have : countCreate (manageTrackedRentals env rest).2 a t = 0 := by
          apply countCreate_manage_not_mem
          exact hnd.1
        omega
      · have hk : k ≠ t := by
          intro he
          subst he
          exact hnd.1 (List.mem_map.mpr ⟨(k, r), h, rfl⟩)
        simp only [manageTrackedRentals, countCreate_append]
        have hz : countCreate (processTrackedRecord env k w).2 a t = 0 := by
          apply countCreate_eq_zero
          intro a' t' p hmem hcon
          have : t' = k := processTrackedRecord_create_token env k w a' t' p hmem
          exact hk (by rw [this] at hcon; exact hcon.2)
        rw [hz, ih hnd.2 h]
        omega

/-! ## Discovery-stage lemmas -/

theorem discoverToken_tracked_skip (env : PassEnv) (addr : String)
    (s : Store) (u : Nat) (rr : RentalInfo)
    (he : lookupRental s u = some rr) (ht : natTruthy rr.loanId = true)
    (ha : rr.nftAddress = addr) :
    discoverToken env addr s u = (s, []) := by
  simp [discoverToken, he, ht, ha]

theorem discoverToken_bundled_warn (env : PassEnv) (addr : String)
    (s : Store) (u : Nat) (hb : env.isBundled addr u = true)
    (hnt : ∀ rr, lookupRental s u = some rr →
      natTruthy rr.loanId = false) :
    discoverToken env addr s u = (s, [Action.bundledSkipWarn u]) := by
  cases he : lookupRental s u with
  | none => simp [discoverToken, he, hb]
  | some rr => simp [discoverToken, he, hnt rr he, hb]

theorem discoverToken_trace_spec (env : PassEnv) (addr : String)
    (s : Store) (u : Nat) :
    discoverToken env addr s u = (s, []) ∨
    (env.isBundled addr u = true ∧
      discoverToken env addr s u = (s, [Action.bundledSkipWarn u])) ∨
    (env.isBundled addr u = false ∧
      ∃ p, (discoverToken env addr s u).2 = [Action.createCall addr u p] ∧
        ((discoverToken env addr s u).1 = s ∨
          ∃ v, (discoverToken env addr s u).1 = setRental s u v)) := by
  by_cases hu : (match lookupRental s u with
    | none => true
    | some r => !(natTruthy r.loanId) || decide (r.nftAddress ≠ addr)) = true
  · by_cases hb : env.isBundled addr u = true
    · refine Or.inr (Or.inl ⟨hb, ?_⟩)
      simp only [discoverToken, hu, hb]
      rfl
    · refine Or.inr (Or.inr ⟨by simpa using hb, ?_⟩)
      rcases hd : env.createResult addr u
          (discoveryPrice (lookupRental s u)) with _ | d
      · have h2 : discoverToken env addr s u =
            (s, [Action.createCall addr u
              (discoveryPrice (lookupRental s u))]) := by
          simp only [discoverToken, hu, if_true, hb, Bool.false_eq_true,
            if_false, hd]
        exact ⟨_, by rw [h2], Or.inl (by rw [h2])⟩
      · have h2 : discoverToken env addr s u =
            (setRental s u
              { price := discoveryPrice (lookupRental s u)
                nftAddress := addr
                loanId := d.loanId
                bundleUUID := d.uuid
                timestamp := some (env.nowMs / 1000) },
             [Action.createCall addr u
               (discoveryPrice (lookupRental s u))]) := by
          simp only [discoverToken, hu, if_true, hb, Bool.false_eq_true,
            if_false, hd]
        exact ⟨_, by rw [h2], Or.inr ⟨_, by rw [h2]⟩⟩
  · left
    simp only [discoverToken]
    rw [if_neg hu]

theorem discoverToken_create_mem (env : PassEnv) (addr : String)
    (s : Store) (u : Nat) (a' : String) (u' : Nat) (p : Int)
    (h : Action.createCall a' u' p ∈ (discoverToken env addr s u).2) :
    a' = addr ∧ u' = u := by
  rcases discoverToken_trace_spec env addr s u with hs | ⟨_, hs⟩ |
    ⟨_, q, hs, _⟩
  · rw [hs] at h; simp at h
  · rw [hs] at h; simp at h
  · rw [hs] at h
    simp at h
    exact ⟨h.1, h.2.1⟩

theorem discoverToken_lookup_ne (env : PassEnv) (addr : String)
    (s : Store) (u t : Nat) (hne : u ≠ t) :
    lookupRental (discoverToken env addr s u).1 t = lookupRental s t := by
  rcases discoverToken_trace_spec env addr s u with hs | ⟨_, hs⟩ |
    ⟨_, q, _, hst⟩
  · rw [hs]
  · rw [hs]
  · rcases hst with hst | ⟨v, hst⟩
    · rw [hst]
    · rw [hst]
      exact lookupRental_setRental_ne s u t v hne

theorem discoverList_create_mem (env : PassEnv) (addr : String)
    (s : Store) (ts : List Nat) (a' : String) (u' : Nat) (p : Int)
    (h : Action.createCall a' u' p ∈ (discoverList env addr s ts).2) :
    a' = addr ∧ u' ∈ ts := by
  induction ts generalizing s with
  | nil => simp [discoverList] at h
  | cons u rest ih =>
      simp only [discoverList, List.mem_append] at h
      rcases h with h | h
      · obtain ⟨h1, h2⟩ := discoverToken_create_mem env addr s u a' u' p h
        exact ⟨h1, by simp [h2]⟩
      · obtain ⟨h1, h2⟩ := ih _ h
        exact ⟨h1, List.mem_cons_of_mem _ h2⟩

theorem discoverList_lookup_not_mem (env : PassEnv) (addr : String)
    (s : Store) (ts : List Nat) (t : Nat) (h : t ∉ ts) :
    lookupRental (discoverList env addr s ts).1 t = lookupRental s t := by
  induction ts generalizing s with
  | nil => rfl
  | cons u rest ih =>
      have hu : u ≠ t := fun he => h (he ▸ List.mem_cons_self u rest)
      simp only [discoverList]
      rw [ih _ fun hm => h (List.mem_cons_of_mem _ hm),
        discoverToken_lookup_ne env addr s u t hu]

theorem discoverList_bundled_preserve (env : PassEnv) (addr : String)
    (s : Store) (ts : List Nat) (t : Nat)
    (hb : env.isBundled addr t = true) :
    lookupRental (discoverList env addr s ts).1 t = lookupRental s t ∧
    ∀ a p, Action.createCall a t p ∉ (discoverList env addr s ts).2 := by
  induction ts generalizing s with
  | nil => exact ⟨rfl, by simp [discoverList]⟩
  | cons u rest ih =>
      by_cases hu : u = t
      · subst hu
        have hstep : (discoverToken env addr s u).1 = s ∧
            ∀ a p, Action.createCall a u p ∉
              (discoverToken env addr s u).2 := by
          rcases discoverToken_trace_spec env addr s u with hs | ⟨_, hs⟩ |
            ⟨hbf, _⟩
          · rw [hs]; exact ⟨rfl, by simp⟩
          · rw [hs]; exact ⟨rfl, by simp⟩
          · rw [hbf] at hb; cases hb
        obtain ⟨ihl, ihc⟩ := ih (discoverToken env addr s u).1
        constructor
        · simp only [discoverList]
          rw [ihl, hstep.1]
        · intro a p hmem
          simp only [discoverList, List.mem_append] at hmem
          rcases hmem with hmem | hmem
          · exact hstep.2 a p hmem
          · exact ihc a p hmem
      · obtain ⟨ihl, ihc⟩ := ih (discoverToken env addr s u).1
        constructor
        · simp only [discoverList]
          rw [ihl, discoverToken_lookup_ne env addr s u t hu]
        · intro a p hmem
          simp only [discoverList, List.mem_append] at hmem
          rcases hmem with hmem | hmem
          · exact hu ((discoverToken_create_mem env addr s u a t p hmem).2.symm ▸ rfl)
          · exact ihc a p hmem

theorem discoverList_skip (env : PassEnv) (addr : String) (s : Store)
    (ts : List Nat)
    (h : ∀ u ∈ ts, ∃ ru, lookupRental s u = some ru ∧
      natTruthy ru.loanId = true ∧ ru.nftAddress = addr) :
    discoverList env addr s ts = (s, []) := by
  induction ts with
  | nil => rfl
  | cons u rest ih =>
      obtain ⟨ru, he, ht, ha⟩ := h u (List.mem_cons_self u rest)
      have hstep := discoverToken_tracked_skip env addr s u ru he ht ha
      simp only [discoverList, hstep]
      rw [ih fun v hv => h v (List.mem_cons_of_mem _ hv)]
      simp

theorem discoverList_entry_inv (env : PassEnv) (addr : String) (s : Store)
    (ts : List Nat) (t : Nat) (rr : RentalInfo)
    (he : lookupRental s t = some rr) (ht : natTruthy rr.loanId = true)
    (ha : rr.nftAddress = addr) :
    lookupRental (discoverList env addr s ts).1 t = some rr ∧
    ∀ a p, Action.createCall a t p ∉ (discoverList env addr s ts).2 := by
  induction ts generalizing s with
  | nil => exact ⟨he, by simp [discoverList]⟩
  | cons u rest ih =>
      by_cases hu : u = t
      · subst hu
        have hstep := discoverToken_tracked_skip env addr s u rr he ht ha
        simp only [discoverList, hstep]
        obtain ⟨ihl, ihc⟩ := ih s he
        exact ⟨ihl, by simpa using ihc⟩
      · have hl2 : lookupRental (discoverToken env addr s u).1 t =
            some rr := by
          rw [discoverToken_lookup_ne env addr s u t hu, he]
        obtain ⟨ihl, ihc⟩ := ih _ hl2
        constructor
        · simp only [discoverList]
          exact ihl
        · intro a p hmem
          simp only [discoverList, List.mem_append] at hmem
          rcases hmem with hmem | hmem
          · exact hu ((discoverToken_create_mem env addr s u a t p hmem).2.symm ▸ rfl)
          · exact ihc a p hmem

theorem discoverList_warn (env : PassEnv) (addr : String) (s : Store)
    (ts : List Nat) (t : Nat) (hb : env.isBundled addr t = true)
    (hnt : ∀ ru, lookupRental s t = some ru →
      natTruthy ru.loanId = false) (hm : t ∈ ts) :
    Action.bundledSkipWarn t ∈ (discoverList env addr s ts).2 := by
  induction ts generalizing s with
  | nil => simp at hm
  | cons u rest ih =>
      by_cases hu : u = t
      · subst hu
        have hstep := discoverToken_bundled_warn env addr s u hb hnt
        simp [discoverList, hstep]
      · have hm2 : t ∈ rest := by
          rcases List.mem_cons.mp hm with h | h
          · exact absurd h.symm hu
          · exact h
        have hnt2 : ∀ ru,
            lookupRental (discoverToken env addr s u).1 t = some ru →
            natTruthy ru.loanId = false := by
          intro ru hru
          rw [discoverToken_lookup_ne env addr s u t hu] at hru
          exact hnt ru hru
        simp only [discoverList, List.mem_append]
        exact Or.inr (ih _ hnt2 hm2)

/-! ## Pricing lemmas -/

theorem decreasePrice_min (p : Int) (hp : MIN_PRICE_FOR_DECREASE < p) :
    MIN_PRICE_FOR_DECREASE ≤ decreasePrice p := by
  have h4 : (4 : Int) ≤ p := by
    simp only [MIN_PRICE_FOR_DECREASE] at hp
    omega
  have h4q : (4 : ℚ) ≤ (p : ℚ) := by exact_mod_cast h4
  simp only [MIN_PRICE_FOR_DECREASE, decreasePrice, PRICE_DECREASE_PERCENT]
  rw [Int.le_floor]
  push_cast
  linarith

theorem staleDecreaseStep_min (p : Int) (hp : MIN_PRICE_FOR_DECREASE ≤ p) :
    MIN_PRICE_FOR_DECREASE ≤ staleDecreaseStep p := by
  unfold staleDecreaseStep
  by_cases h : MIN_PRICE_FOR_DECREASE < p
  · rw [if_pos h]
    exact decreasePrice_min p h
  · rw [if_neg h]
    exact hp

theorem staleDecreaseStep_iterate_min (n : Nat) (p : Int)
    (hp : MIN_PRICE_FOR_DECREASE ≤ p) :
    MIN_PRICE_FOR_DECREASE ≤ staleDecreaseStep^[n] p := by
  induction n generalizing p with
  | zero => exact hp
  | succ n ih =>
      rw [Function.iterate_succ_apply]
      exact ih _ (staleDecreaseStep_min p hp)

theorem staleDecreaseStep_fixed (p : Int)
    (hp : ¬ MIN_PRICE_FOR_DECREASE < p) : staleDecreaseStep p = p := by
  unfold staleDecreaseStep
  rw [if_neg hp]

/-! ## Lemmas about the createVoxiesRental retry loop -/

theorem createLoop_isSome (ar : Nat → AttemptResult) (ug : Nat → String) :
    ∀ (rem att : Nat) (u h : Option String),
      (createLoop ar ug rem att u h).isSome = true := by
  intro rem
  induction rem with
  | zero => intro att u h; rfl
  | succ n ih =>
      intro att u h
      unfold createLoop
      cases har : ar att with
      | thrown i sh => exact ih (att + 1) _ _
      | waitTimeoutNoReceipt hash =>
          dsimp only
          by_cases hn : n = 0
          · rw [if_pos hn]
            rfl
          · rw [if_neg hn]
            exact ih (att + 1) _ _
      | gotReceipt hash rc =>
          dsimp only
          by_cases h1 : rc.status ≠ 1
          · rw [if_pos h1]
            exact ih (att + 1) _ _
          · rw [if_neg h1]
            by_cases h2 : rc.logs = []
            · rw [if_pos h2]
              exact ih (att + 1) _ _
            · rw [if_neg h2]
              cases hfl : firstLoanId rc.logs with
              | some lid => rfl
              | none => exact ih (att + 1) _ _

theorem createLoop_allFail (ar : Nat → AttemptResult) (ug : Nat → String) :
    ∀ (rem att : Nat) (u h : Option String),
      (∀ a, att ≤ a → a < att + rem → attemptFailed (ar a) = true) →
      ∃ o, createLoop ar ug rem att u h = some o ∧ o.loanId = none := by
  intro rem
  induction rem with
  | zero => intro att u h _; exact ⟨⟨none, u, h⟩, rfl, rfl⟩
  | succ n ih =>
      intro att u h hb
      have hatt : attemptFailed (ar att) = true :=
        hb att (le_refl att) (by omega)
      have hb2 : ∀ a, att + 1 ≤ a → a < att + 1 + n →
          attemptFailed (ar a) = true := by
        intro a h1 h2
        exact hb a (by omega) (by omega)
      unfold createLoop
      cases har : ar att with
      | thrown i sh => exact ih (att + 1) _ _ hb2
      | waitTimeoutNoReceipt hash =>
          dsimp only
          by_cases hn : n = 0
          · rw [if_pos hn]
            exact ⟨_, rfl, rfl⟩
          · rw [if_neg hn]
            exact ih (att + 1) _ _ hb2
      | gotReceipt hash rc =>
          rw [har] at hatt
          dsimp only
          by_cases h1 : rc.status ≠ 1
          · rw [if_pos h1]
            exact ih (att + 1) _ _ hb2
          · rw [if_neg h1]
            have hfl : firstLoanId rc.logs = none := by
              simp only [attemptFailed, Bool.or_eq_true, decide_eq_true_eq,
                Option.isNone_iff_eq_none] at hatt
              rcases hatt with hx | hx
              · exact absurd hx h1
              · exact hx
            by_cases h2 : rc.logs = []
            · rw [if_pos h2]
              exact ih (att + 1) _ _ hb2
            · rw [if_neg h2]
              rw [hfl]
              exact ih (att + 1) _ _ hb2

theorem createLoop_congr (ar ar' : Nat → AttemptResult)
    (ug : Nat → String) :
    ∀ (rem att : Nat) (u h : Option String),
      (∀ a, att ≤ a → a < att + rem → ar a = ar' a) →
      createLoop ar ug rem att u h = createLoop ar' ug rem att u h := by
  intro rem
  induction rem with
  | zero => intro att u h _; rfl
  | succ n ih =>
      intro att u h hb
      have hatt : ar att = ar' att := hb att (le_refl att) (by omega)
      have hb2 : ∀ a, att + 1 ≤ a → a < att + 1 + n → ar a = ar' a := by
        intro a h1 h2
        exact hb a (by omega) (by omega)
      unfold createLoop
      rw [hatt]
      cases har : ar' att with
      | thrown i sh => exact ih (att + 1) _ _ hb2
      | waitTimeoutNoReceipt hash =>
          dsimp only
          by_cases hn : n = 0
          · rw [if_pos hn, if_pos hn]
          · rw [if_neg hn, if_neg hn]
            exact ih (att + 1) _ _ hb2
      | gotReceipt hash rc =>
          dsimp only
          by_cases h1 : rc.status ≠ 1
          · rw [if_pos h1, if_pos h1]
            exact ih (att + 1) _ _ hb2
          · rw [if_neg h1, if_neg h1]
            by_cases h2 : rc.logs = []
            · rw [if_pos h2, if_pos h2]
              exact ih (att + 1) _ _ hb2
            · rw [if_neg h2, if_neg h2]
              cases hfl : firstLoanId rc.logs with
              | some lid => rfl
              | none => exact ih (att + 1) _ _ hb2

theorem createLoop_fail_next (ar : Nat → AttemptResult)
    (ug : Nat → String) (rem att : Nat) (u h : Option String)
    (hf : attemptFailed (ar att) = true) (hrem : rem ≠ 0) :
    ∃ h', createLoop ar ug (rem + 1) att u h =
      createLoop ar ug rem (att + 1) (some (ug att)) h' := by
  cases har : ar att with
  | thrown i sh =>
      refine ⟨orTxHash sh h, ?_⟩
      conv_lhs => unfold createLoop
      rw [har]
  | waitTimeoutNoReceipt hash =>
      refine ⟨some hash, ?_⟩
      conv_lhs => unfold createLoop
      rw [har]
      dsimp only
      rw [if_neg hrem]
  | gotReceipt hash rc =>
      rw [har] at hf
      have hfl : rc.status = 1 → firstLoanId rc.logs = none := by
        intro hst
        simp only [attemptFailed, Bool.or_eq_true, decide_eq_true_eq,
          Option.isNone_iff_eq_none] at hf
        rcases hf with hx | hx
        · exact absurd hst hx
        · exact hx
      refine ⟨some hash, ?_⟩
      conv_lhs => unfold createLoop
      rw [har]
      dsimp only
      by_cases h1 : rc.status ≠ 1
      · rw [if_pos h1]
      · rw [if_neg h1]
        by_cases h2 : rc.logs = []
        · rw [if_pos h2]
        · rw [if_neg h2, hfl (by omega)]

theorem createLoop_receipt_success (ar : Nat → AttemptResult)
    (ug : Nat → String) (rem att : Nat) (u h : Option String)
    (hash : String) (rc : Receipt) (lid : Nat)
    (har : ar att = AttemptResult.gotReceipt hash rc)
    (hst : rc.status = 1) (hfl : firstLoanId rc.logs = some lid) :
    createLoop ar ug (rem + 1) att u h =
      some ⟨some lid, some (ug att), some hash⟩ := by
  have hlog : rc.logs ≠ [] := by
    intro hemp
    rw [hemp] at hfl
    cases hfl
  unfold createLoop
  rw [har]
  dsimp only
  rw [if_neg (by omega : ¬ rc.status ≠ 1), if_neg hlog, hfl]

/-! ## Remaining small lemmas -/

theorem mem_of_lookupRental (store : Store) (t : Nat) (r : RentalInfo)
    (h : lookupRental store t = some r) : (t, r) ∈ store := by
  induction store with
  | nil => cases h
  | cons kv rest ih =>
      obtain ⟨k, w⟩ := kv
      simp only [lookupRental] at h
      by_cases hk : k = t
      · rw [if_pos hk] at h
        injection h with h
        subst hk; subst h
        exact List.mem_cons_self _ _
      · rw [if_neg hk] at h
        exact List.mem_cons_of_mem _ (ih h)

theorem record_eq_of_nodup (store : Store) (t : Nat) (r rk : RentalInfo)
    (hnd : (store.map Prod.fst).Nodup) (h1 : (t, r) ∈ store)
    (h2 : (t, rk) ∈ store) : rk = r := by
  have e1 := lookupRental_of_mem store t r hnd h1
  have e2 := lookupRental_of_mem store t rk hnd h2
  rw [e1] at e2
  injection e2 with e2
  exact e2.symm

theorem manageTrackedRentals_trace_of_mem (env : PassEnv) (store : Store)
    (t : Nat) (r : RentalInfo) (act : Action) (hm : (t, r) ∈ store)
    (ha : act ∈ (processTrackedRecord env t r).2) :
    act ∈ (manageTrackedRentals env store).2 := by
  induction store with
  | nil => simp at hm
  | cons kv rest ih =>
      obtain ⟨k, w⟩ := kv
      simp only [manageTrackedRentals, List.mem_append]
      rcases List.mem_cons.mp hm with h | h
      · injection h with h1 h2
        subst h1; subst h2
        exact Or.inl ha
      · exact Or.inr (ih h)

theorem probeOwner_addr (env : PassEnv) (t : Nat) (owner a : String)
    (h : probeOwner env t = some (owner, a)) :
    a = NFT_CONTRACT_ADDRESS ∨ a = VOXIE_CONTRACT_ADDRESS := by
  unfold probeOwner at h
  cases h1 : env.ownerOfNft t with
  | some o =>
      rw [h1] at h
      injection h with h
      injection h with _ h
      exact Or.inl h.symm
  | none =>
      rw [h1] at h
      cases h2 : env.ownerOfVoxie t with
      | some o =>
          rw [h2] at h
          injection h with h
          injection h with _ h
          exact Or.inr h.symm
      | none => rw [h2] at h; cases h

theorem waitForNftToBeUnbundled_iff (polls : List (Option Bool)) :
    waitForNftToBeUnbundled polls = true ↔
      ∃ b ∈ polls, b = some false := by
  unfold waitForNftToBeUnbundled
  rw [List.any_eq_true]
  constructor
  · rintro ⟨b, hb, he⟩
    exact ⟨b, hb, by simpa using he⟩
  · rintro ⟨b, hb, he⟩
    exact ⟨b, hb, by simpa using he⟩

theorem waitForNftToBeUnbundled_eq_false (polls : List (Option Bool))
    (h : ∀ b ∈ polls, b ≠ some false) :
    waitForNftToBeUnbundled polls = false := by
  rw [← Bool.not_eq_true, waitForNftToBeUnbundled_iff]
  rintro ⟨b, hb, he⟩
  exact h b hb he

/-! ## Concrete environments used by witnesses and counterexamples -/

/-- A base environment for concrete instantiations; each scenario
overrides the fields it exercises. -/
def wBaseEnv : PassEnv where
  signer := "0xa"
  nowMs := 0
  ownerOfNft := fun _ => none
  ownerOfVoxie := fun _ => none
  isBundled := fun _ _ => false
  loanItems := fun _ => none
  cancelOk := fun _ => false
  polls := fun _ _ => []
  createResult := fun _ _ _ => none
  walletNft := []
  walletVoxie := []

/-! ## Claim C5: pricing rules -/

/-- The exact ceiling `⌈11 n / 10⌉` as natural-number division, usable in
kernel computation. -/
def exactCeilElevenTenths (n : Nat) : Nat := (11 * n + 9) / 10

/-- The natural-number formula `(11 n + 9) / 10` is the exact ceiling of
the rational `n * 11 / 10`. -/
theorem exactCeilElevenTenths_eq (n : Nat) :
    Int.ceil ((n : ℚ) * PRICE_INCREASE_PERCENT) =
      (exactCeilElevenTenths n : Int) := by
  have hd := Nat.div_add_mod (11 * n + 9) 10
  have hm : (11 * n + 9) % 10 < 10 := Nat.mod_lt _ (by norm_num)
  rw [PRICE_INCREASE_PERCENT]
  unfold exactCeilElevenTenths
  set k := (11 * n + 9) / 10 with hk
  have h1 : 10 * k ≤ 11 * n + 9 := by omega
  have h2 : 11 * n ≤ 10 * k := by omega
  rw [Int.ceil_eq_iff]
  constructor
  · have h1q : (10 : ℚ) * k ≤ 11 * n + 9 := by exact_mod_cast h1
    push_cast
    linarith
  · have h2q : (11 : ℚ) * n ≤ 10 * k := by exact_mod_cast h2
    push_cast
    linarith

/-- On a nonnegative integer price the double-faithful `increasePrice` is
the binary64 ceiling `jsCeilMul11`. -/
theorem increasePrice_natCast (n : Nat) :
    increasePrice (n : Int) = (jsCeilMul11 n : Int) := by
  unfold increasePrice
  rw [if_pos (Int.natCast_nonneg n), Int.toNat_natCast]

set_option maxRecDepth 8000 in
/-- Over the whole realistic price range the binary64 ceiling never falls
below the exact ceiling and overshoots it by at most one (checked
exhaustively by kernel computation). -/
theorem jsCeilMul11_bounds : ∀ n : Nat, n ≤ 400 →
    exactCeilElevenTenths n ≤ jsCeilMul11 n ∧
    jsCeilMul11 n ≤ exactCeilElevenTenths n + 1 := by decide

/-- C5 counterexample: the claim says the increase rule computes the exact
ceiling of `price * 1.1`; the code computes `Math.ceil(price * 1.1)` over
binary64 doubles, where `50 * 1.1 = 55.00000000000001`, so the code
yields 56 while the exact ceiling of `50 * 1.1` is 55. -/
theorem C5_counterexample :
    increasePrice 50 = 56 ∧
    Int.ceil ((50 : ℚ) * PRICE_INCREASE_PERCENT) = 55 := by
  constructor
  · decide
  · have h : (50 : ℚ) * PRICE_INCREASE_PERCENT = ((55 : Int) : ℚ) := by
      rw [PRICE_INCREASE_PERCENT]; norm_num
    rw [h, Int.ceil_intCast]

/-- C5 amended: `increasePrice` computes `Math.ceil(price * 1.1)` over
IEEE-754 binary64 doubles, where the literal `1.1` is slightly above
`11 / 10`; on every price in `0..400` the result is at least the exact
ceiling `⌈price * 11 / 10⌉` and exceeds it by at most one (it still always
rounds up, e.g. 5 → 6, 10 → 11, but 50 → 56 and 100 → 111 overshoot);
`decreasePrice` computes the exact floor of `price * 0.9` (the binary64
product of an integer in range with the double `0.9` rounds to a value
whose floor agrees with the exact one); the staleness-triggered decrease
fires only when the price strictly exceeds `MIN_PRICE_FOR_DECREASE = 3`
(a tracked record with a live, unexpired loan and price at most 3 is left
untouched); consequently a guarded decrease never produces a price below
3, and iterating the guarded staleness step never drives the price below
`min price 3`. -/
theorem C5_price_rules_amended :
    (increasePrice 5 = 6 ∧ increasePrice 10 = 11 ∧
      increasePrice 50 = 56 ∧ increasePrice 100 = 111) ∧
    (∀ n : Nat, n ≤ 400 →
      Int.ceil ((n : ℚ) * PRICE_INCREASE_PERCENT) ≤ increasePrice (n : Int) ∧
      increasePrice (n : Int) ≤
        Int.ceil ((n : ℚ) * PRICE_INCREASE_PERCENT) + 1) ∧
    (∀ p : Int, (decreasePrice p : ℚ) ≤ (p : ℚ) * PRICE_DECREASE_PERCENT ∧
      (p : ℚ) * PRICE_DECREASE_PERCENT - 1 < (decreasePrice p : ℚ)) ∧
    (∀ (env : PassEnv) (t : Nat) (r : RentalInfo) (lid : Nat)
        (loan : ContractLoan),
      r.loanId = some lid → lid ≠ 0 →
      env.loanItems lid = some loan → loan.canceled = false →
      addrEq loan.owner env.signer = true →
      isLoanExpired env.nowMs loan.endTime = false →
      r.price ≤ MIN_PRICE_FOR_DECREASE →
      processTrackedRecord env t r = (r, [])) ∧
    (∀ p : Int, MIN_PRICE_FOR_DECREASE < p →
      MIN_PRICE_FOR_DECREASE ≤ decreasePrice p) ∧
    (∀ (n : Nat) (p : Int),
      min p MIN_PRICE_FOR_DECREASE ≤ staleDecreaseStep^[n] p) := by
  refine ⟨⟨by decide, by decide, by decide, by decide⟩, ?_, ?_, ?_, ?_, ?_⟩
  · intro n hn
    rw [increasePrice_natCast, exactCeilElevenTenths_eq]
    have h := jsCeilMul11_bounds n hn
    exact ⟨by exact_mod_cast h.1, by exact_mod_cast h.2⟩
  · intro p
    exact ⟨Int.floor_le _, Int.sub_one_lt_floor _⟩
  · intro env t r lid loan h1 h2 h3 h4 h5 h6 h7
    rw [processTrackedRecord_eq_withLoan env t r lid h1 h2]
    exact trackedWithLoan_quiet env t r lid loan h3 h4 h5 h6
      (Or.inr (Or.inr h7))
  · exact decreasePrice_min
  · intro n p
    rcases le_or_lt p MIN_PRICE_FOR_DECREASE with hp | hp
    · rw [Function.iterate_fixed
        (staleDecreaseStep_fixed p (not_lt.mpr hp)) n]
      exact min_le_left _ _
    · exact le_trans (min_le_right p _)
        (staleDecreaseStep_iterate_min n p (le_of_lt hp))

/-- The tracked record of the C5 witness: price 3 (at the floor), with a
live loan. -/
def rC5w : RentalInfo :=
  { price := 3, nftAddress := NFT_CONTRACT_ADDRESS, loanId := some 7,
    bundleUUID := none, timestamp := some 1 }

/-- The environment of the C5 witness: loan 7 is live, owned by the
signer, unexpired. -/
def envC5w : PassEnv :=
  { wBaseEnv with loanItems := fun _ => some ⟨"0xA", "0xb", 0, 0, false⟩ }

/-- Witness for the amended C5 at concrete inputs. -/
theorem C5_price_rules_amended_witness :
    (Int.ceil (((50 : Nat) : ℚ) * PRICE_INCREASE_PERCENT) ≤
      increasePrice ((50 : Nat) : Int)) ∧
    ((decreasePrice 4 : ℚ) ≤ (4 : ℚ) * PRICE_DECREASE_PERCENT) ∧
    processTrackedRecord envC5w 9 rC5w = (rC5w, []) ∧
    MIN_PRICE_FOR_DECREASE ≤ decreasePrice 4 ∧
    min 10 MIN_PRICE_FOR_DECREASE ≤ staleDecreaseStep^[5] 10 :=
  ⟨(C5_price_rules_amended.2.1 50 (by decide)).1,
   (C5_price_rules_amended.2.2.1 4).1,
   C5_price_rules_amended.2.2.2.1 envC5w 9 rC5w 7 ⟨"0xA", "0xb", 0, 0, false⟩
     rfl (by decide) rfl rfl (by decide) (by decide) (by decide),
   C5_price_rules_amended.2.2.2.2.1 4 (by decide),
   C5_price_rules_amended.2.2.2.2.2 5 10⟩

/-! ## Claim C6: retry budgets of the two mutating operations -/

/-- C6 counterexample: the claim says cancel retries a failed attempt up
to a budget of 3 attempts; in the code `cancelRental` has no retry loop.
Under an environment whose first attempt fails but whose second and third
attempts would succeed, a 3-attempt retry would return success, yet
`cancelRental` returns failure: it never consults any attempt past the
first. -/
theorem C6_counterexample :
    cancelRental
      (fun a => if a = 1 then TxStep.sendFail else TxStep.confirmed) =
      false := rfl

/-- C6 amended: `createVoxiesRental` retries up to
`MAX_RETRY_ATTEMPTS = 3` attempts (it consults no attempt beyond the
third, a transiently failed attempt is retried, and exhaustion yields a
definitive failure object rather than an exception), while `cancelRental`
makes a single attempt, returning `true` exactly on a confirmed
cancellation and `false` on any error, consulting only attempt 1. -/
theorem C6_retry_amended :
    (∀ step : Nat → TxStep,
      (step 1 = TxStep.confirmed → cancelRental step = true) ∧
      (step 1 ≠ TxStep.confirmed → cancelRental step = false)) ∧
    (∀ step step' : Nat → TxStep, step 1 = step' 1 →
      cancelRental step = cancelRental step') ∧
    (∀ (ar : Nat → AttemptResult) (ug : Nat → String),
      (createVoxiesRental ar ug).isSome = true) ∧
    (∀ (ar ar' : Nat → AttemptResult) (ug : Nat → String),
      (∀ a, 1 ≤ a → a ≤ MAX_RETRY_ATTEMPTS → ar a = ar' a) →
      createVoxiesRental ar ug = createVoxiesRental ar' ug) ∧
    (∀ (ar : Nat → AttemptResult) (ug : Nat → String),
      (∀ a, 1 ≤ a → a ≤ MAX_RETRY_ATTEMPTS → attemptFailed (ar a) = true) →
      ∃ o, createVoxiesRental ar ug = some o ∧ o.loanId = none) ∧
    (∀ (ar : Nat → AttemptResult) (ug : Nat → String) (hash : String)
        (rc : Receipt) (lid : Nat),
      attemptFailed (ar 1) = true →
      ar 2 = AttemptResult.gotReceipt hash rc → rc.status = 1 →
      firstLoanId rc.logs = some lid →
      createVoxiesRental ar ug = some ⟨some lid, some (ug 2), some hash⟩) := by
  refine ⟨?_, ?_, ?_, ?_, ?_, ?_⟩
  · intro step
    constructor
    · intro h
      simp [cancelRental, h]
    · intro h
      cases hs : step 1
      case confirmed => exact absurd hs h
      all_goals simp [cancelRental, hs]
  · intro step step' h
    unfold cancelRental
    rw [h]
  · intro ar ug
    exact createLoop_isSome ar ug MAX_RETRY_ATTEMPTS 1 none none
  · intro ar ar' ug h
    apply createLoop_congr
    intro a h1 h2
    refine h a h1 ?_
    simp only [MAX_RETRY_ATTEMPTS] at h2 ⊢
    omega
  · intro ar ug h
    apply createLoop_allFail
    intro a h1 h2
    refine h a h1 ?_
    simp only [MAX_RETRY_ATTEMPTS] at h2 ⊢
    omega
  · intro ar ug hash rc lid hf har hst hfl
    obtain ⟨h', heq⟩ := createLoop_fail_next ar ug 2 1 none none hf
      (by decide)
    unfold createVoxiesRental
    rw [show MAX_RETRY_ATTEMPTS = 2 + 1 from rfl, heq]
    exact createLoop_receipt_success ar ug 1 2 (some (ug 1)) h' hash rc
      lid har hst hfl

/-- Uuid generator used by concrete submitter scenarios. -/
def ugw : Nat → String := fun _ => "u"

/-- A submitter environment where every attempt throws. -/
def arFailw : Nat → AttemptResult := fun _ => AttemptResult.thrown true none

/-- A submitter environment differing from `arFailw` only past attempt 3. -/
def arB6w : Nat → AttemptResult := fun a =>
  if a ≤ 3 then AttemptResult.thrown true none
  else AttemptResult.waitTimeoutNoReceipt "x"

/-- A submitter environment whose first attempt throws and whose second
attempt yields a successful receipt with the listing-created event. -/
def arRetryw : Nat → AttemptResult := fun a =>
  if a = 1 then AttemptResult.thrown true none
  else AttemptResult.gotReceipt "h2"
    ⟨1, [RLog.decoded "LoanableItemCreated" 11]⟩

/-- Witness for the amended C6 at concrete inputs. -/
theorem C6_retry_amended_witness :
    cancelRental (fun _ => TxStep.confirmed) = true ∧
    cancelRental (fun _ => TxStep.sendFail) = false ∧
    (createVoxiesRental arFailw ugw).isSome = true ∧
    createVoxiesRental arFailw ugw = createVoxiesRental arB6w ugw ∧
    (∃ o, createVoxiesRental arFailw ugw = some o ∧ o.loanId = none) ∧
    createVoxiesRental arRetryw ugw =
      some ⟨some 11, some (ugw 2), some "h2"⟩ :=
  ⟨(C6_retry_amended.1 (fun _ => TxStep.confirmed)).1 rfl,
   (C6_retry_amended.1 (fun _ => TxStep.sendFail)).2 (by decide),
   C6_retry_amended.2.2.1 arFailw ugw,
   C6_retry_amended.2.2.2.1 arFailw arB6w ugw (by
     intro a h1 h2
     simp only [MAX_RETRY_ATTEMPTS] at h2
     simp [arFailw, arB6w, h2]),
   C6_retry_amended.2.2.2.2.1 arFailw ugw (fun _ _ _ => rfl),
   C6_retry_amended.2.2.2.2.2 arRetryw ugw "h2"
     ⟨1, [RLog.decoded "LoanableItemCreated" 11]⟩ 11 (by decide)
     (by decide) rfl (by decide)⟩

/-! ## Claim C8: receipt success requires the listing-created event -/

/-- C8: an attempt whose receipt has success status succeeds exactly when
a `LoanableItemCreated` event is decodable among the receipt's logs, and
then the returned loan id is the one extracted from that event; if every
attempt yields a success-status receipt without such an event, the whole
call returns a failure object with no loan id. -/
theorem C8_event_extraction :
    (∀ (ar : Nat → AttemptResult) (ug : Nat → String) (hash : String)
        (rc : Receipt) (lid : Nat),
      ar 1 = AttemptResult.gotReceipt hash rc → rc.status = 1 →
      firstLoanId rc.logs = some lid →
      createVoxiesRental ar ug = some ⟨some lid, some (ug 1), some hash⟩) ∧
    (∀ (ar : Nat → AttemptResult) (ug : Nat → String),
      (∀ a, 1 ≤ a → a ≤ MAX_RETRY_ATTEMPTS → ∃ hash rc,
        ar a = AttemptResult.gotReceipt hash rc ∧ rc.status = 1 ∧
        firstLoanId rc.logs = none) →
      ∃ o, createVoxiesRental ar ug = some o ∧ o.loanId = none) := by
  constructor
  · intro ar ug hash rc lid har hst hfl
    unfold createVoxiesRental
    rw [show MAX_RETRY_ATTEMPTS = 2 + 1 from rfl]
    exact createLoop_receipt_success ar ug 2 1 none none hash rc lid har
      hst hfl
  · intro ar ug h
    apply createLoop_allFail
    intro a h1 h2
    have h3 : a ≤ MAX_RETRY_ATTEMPTS := by
      simp only [MAX_RETRY_ATTEMPTS] at h2 ⊢
      omega
    obtain ⟨hash, rc, har, hst, hfl⟩ := h a h1 h3
    rw [har]
    simp [attemptFailed, hst, hfl]

/-- A receipt carrying the listing-created event after an undecodable
log. -/
def rcC8w : Receipt := ⟨1, [RLog.undecodable,
  RLog.decoded "LoanableItemCreated" 42]⟩

/-- A success-status receipt without the listing-created event. -/
def rcC8f : Receipt := ⟨1, [RLog.decoded "SomeOtherEvent" 0]⟩

/-- A submitter environment always returning `rcC8w`. -/
def arC8w : Nat → AttemptResult := fun _ =>
  AttemptResult.gotReceipt "hh" rcC8w

/-- A submitter environment always returning `rcC8f`. -/
def arC8f : Nat → AttemptResult := fun _ =>
  AttemptResult.gotReceipt "hh" rcC8f

/-- Witness for C8 at concrete inputs. -/
theorem C8_event_extraction_witness :
    createVoxiesRental arC8w ugw =
      some ⟨some 42, some (ugw 1), some "hh"⟩ ∧
    (∃ o, createVoxiesRental arC8f ugw = some o ∧ o.loanId = none) :=
  ⟨C8_event_extraction.1 arC8w ugw "hh" rcC8w 42 rfl rfl (by decide),
   C8_event_extraction.2 arC8f ugw
     (fun _ _ _ => ⟨"hh", rcC8f, rfl, rfl, by decide⟩)⟩

/-! ## Claim C10: createVoxiesRental always returns an object -/

/-- C10: `createVoxiesRental` returns a defined object on every path
(never `undefined`, never an escaping exception); when all attempts fail
the object carries no loan id; and in the tracked `NoActiveLoan` listing
path this still-truthy failure object makes the caller update the
record's `bundleUUID` and `timestamp` (and assign the undefined loan id)
even though no loan was obtained. -/
theorem C10_create_returns_object :
    (∀ (ar : Nat → AttemptResult) (ug : Nat → String),
      (createVoxiesRental ar ug).isSome = true) ∧
    (∀ (ar : Nat → AttemptResult) (ug : Nat → String),
      (∀ a, 1 ≤ a → a ≤ MAX_RETRY_ATTEMPTS →
        attemptFailed (ar a) = true) →
      ∃ o, createVoxiesRental ar ug = some o ∧ o.loanId = none) ∧
    (∀ (env : PassEnv) (t : Nat) (r : RentalInfo) (owner addr : String)
        (o : CreateOutcome),
      natTruthy r.loanId = false →
      probeOwner env t = some (owner, addr) →
      addrEq owner env.signer = true →
      env.isBundled addr t = false →
      env.createResult addr t r.price = some o →
      o.loanId = none →
      processTrackedRecord env t r =
        ({ r with
            nftAddress := addr
            loanId := none
            bundleUUID := o.uuid
            timestamp := some (env.nowMs / 1000) },
         [Action.createCall addr t r.price])) := by
  refine ⟨?_, ?_, ?_⟩
  · intro ar ug
    exact createLoop_isSome ar ug MAX_RETRY_ATTEMPTS 1 none none
  · intro ar ug h
    apply createLoop_allFail
    intro a h1 h2
    refine h a h1 ?_
    simp only [MAX_RETRY_ATTEMPTS] at h2 ⊢
    omega
  · intro env t r owner addr o h1 h2 h3 h4 h5 h6
    rw [processTrackedRecord_eq_noLoan env t r h1,
      trackedNoLoan_creates env t r owner addr o h2 h3 h4 h5, h6]

/-- The tracked record of the C10 witness: no loan id. -/
def rC10w : RentalInfo := { price := 4, nftAddress := "" }

/-- The environment of the C10 witness: the signer owns token 5 and every
create submission returns the failure object
`{ loanId: undefined, uuid, txHash: undefined }`. -/
def envC10w : PassEnv :=
  { wBaseEnv with
      ownerOfNft := fun _ => some "0xA"
      createResult := fun _ _ _ => some ⟨none, some "u", none⟩ }

/-- Witness for C10 at concrete inputs. -/
theorem C10_create_returns_object_witness :
    (createVoxiesRental arFailw ugw).isSome = true ∧
    (∃ o, createVoxiesRental arFailw ugw = some o ∧ o.loanId = none) ∧
    processTrackedRecord envC10w 5 rC10w =
      ({ rC10w with
          nftAddress := NFT_CONTRACT_ADDRESS
          loanId := none
          bundleUUID := some "u"
          timestamp := some 0 },
       [Action.createCall NFT_CONTRACT_ADDRESS 5 4]) :=
  ⟨C10_create_returns_object.1 arFailw ugw,
   C10_create_returns_object.2.1 arFailw ugw (fun _ _ _ => rfl),
   C10_create_returns_object.2.2 envC10w 5 rC10w "0xA"
     NFT_CONTRACT_ADDRESS ⟨none, some "u", none⟩ rfl rfl (by decide)
     rfl rfl rfl⟩

/-! ## Claim C7: failure handling in the Expired and Stale paths -/

/-- A tracked record with live loan 7, used by several concrete
scenarios. -/
def rTracked7 : RentalInfo :=
  { price := 4, nftAddress := NFT_CONTRACT_ADDRESS, loanId := some 7,
    bundleUUID := some "b", timestamp := some 1 }

/-- The C7 counterexample environment: loan 7 is expired (endTime 1,
now 2000 s) and owned by the signer, and the cancel transaction fails. -/
def envC7x : PassEnv :=
  { wBaseEnv with
      nowMs := 2000000
      loanItems := fun _ => some ⟨"0xa", ZERO_ADDRESS, 0, 1, false⟩ }

/-- C7 counterexample: the claim says any failure at the cancellation
step drops the record's `loanId`; in the code a failed cancellation
leaves the record untouched (there is no else branch after
`if (cancelSuccess)`), so the loan id is retained. -/
theorem C7_counterexample :
    processTrackedRecord envC7x 5 rTracked7 =
      (rTracked7, [Action.cancelCall 7]) ∧
    rTracked7.loanId = some 7 := by decide

/-- C7 amended: in the Expired and Stale paths, a failure at the
unbundling-confirmation step or at the relisting step drops the record's
`loanId`; a failure at the cancellation step leaves the record unchanged
(the loan is still live on-chain), retaining its `loanId`. -/
theorem C7_drop_on_late_failures :
    ∀ (env : PassEnv) (t : Nat) (r : RentalInfo) (lid : Nat)
      (loan : ContractLoan),
      r.loanId = some lid → lid ≠ 0 →
      env.loanItems lid = some loan → loan.canceled = false →
      addrEq loan.owner env.signer = true →
      (isLoanExpired env.nowMs loan.endTime = true ∨
        (isLoanExpired env.nowMs loan.endTime = false ∧
          loan.loanee = ZERO_ADDRESS ∧
          isLoanListedGreatThanDays env.nowMs r.timestamp
            PRICE_DROP_DAYS = true ∧
          MIN_PRICE_FOR_DECREASE < r.price)) →
      (env.cancelOk lid = false →
        processTrackedRecord env t r = (r, [Action.cancelCall lid])) ∧
      (env.cancelOk lid = true →
        waitForNftToBeUnbundled (env.polls r.nftAddress t) = false →
        (processTrackedRecord env t r).1 = { r with loanId := none }) ∧
      (env.cancelOk lid = true →
        waitForNftToBeUnbundled (env.polls r.nftAddress t) = true →
        (∀ p, natTruthy
          (optLoanId (env.createResult r.nftAddress t p)) = false) →
        (processTrackedRecord env t r).1 = { r with loanId := none }) := by
  intro env t r lid loan h1 h2 h3 h4 h5 hbr
  have hred : ∃ np, processTrackedRecord env t r =
      cancelAndRelist env t r lid np := by
    rw [processTrackedRecord_eq_withLoan env t r lid h1 h2]
    rcases hbr with he | ⟨he, hrz, hst, hpx⟩
    · exact ⟨_, trackedWithLoan_expired env t r lid loan h3 h4 h5 he⟩
    · exact ⟨_, trackedWithLoan_stale env t r lid loan h3 h4 h5 he hrz
        hst hpx⟩
  obtain ⟨np, hnp⟩ := hred
  refine ⟨?_, ?_, ?_⟩
  · intro hc
    rw [hnp]
    exact cancelAndRelist_cancelFail env t r lid np hc
  · intro hc hw
    rw [hnp, cancelAndRelist_waitFail env t r lid np hc hw]
  · intro hc hw hf
    rw [hnp, cancelAndRelist_relistFail env t r lid np hc hw (hf np)]

/-- The C7 witness environment: like the counterexample but the cancel
succeeds and no poll ever observes the asset unbundled. -/
def envC7w : PassEnv := { envC7x with cancelOk := fun _ => true }

/-- Witness for the amended C7: unbundling-confirmation failure drops the
loan id. -/
theorem C7_drop_on_late_failures_witness :
    (processTrackedRecord envC7w 5 rTracked7).1 =
      { rTracked7 with loanId := none } :=
  (C7_drop_on_late_failures envC7w 5 rTracked7 7
    ⟨"0xa", ZERO_ADDRESS, 0, 1, false⟩ rfl (by decide) rfl rfl
    (by decide) (Or.inl (by decide))).2.1 rfl (by decide)

/-! ## Claim C3: state-drift conditions drop the loan id -/

/-- The C3 counterexample environment: loan 7 is observed canceled
on-chain, the wallet holds token 5 unbundled, and create submissions
succeed. -/
def envC3x : PassEnv :=
  { wBaseEnv with
      loanItems := fun _ => some ⟨"0xa", ZERO_ADDRESS, 0, 0, true⟩
      createResult := fun _ _ _ => some ⟨some 9, some "u", some "h"⟩
      walletNft := [5] }

/-- The C3 counterexample store: token 5 tracked with loan id 7. -/
def storeC3x : Store := [(5, rTracked7)]

/-- C3 counterexample: the claim says that after observing
`canceled = true` the pass submits no create-listing transaction for that
asset; the tracked stage does clear `loanId`, but the discovery stage of
the same pass then finds the (now unbundled, wallet-held) asset without a
loan id and submits a create-listing for it. -/
theorem C3_counterexample :
    (lookupRental (manageTrackedRentals envC3x storeC3x).1 5).map
      RentalInfo.loanId = some none ∧
    countCreate (processRentals envC3x storeC3x).2
      NFT_CONTRACT_ADDRESS 5 = 1 := by decide

/-- C3 amended: for a tracked record with a loan id, a failed snapshot
fetch, an observed `canceled = true`, or an owner no longer matching the
wallet each make the tracked stage clear the record's `loanId` and
perform no cancel or create-listing call for it; the discovery stage of
the same pass may still list the asset if the wallet holds it
unbundled. -/
theorem C3_drift_clears_loanId :
    ∀ (env : PassEnv) (t : Nat) (r : RentalInfo) (lid : Nat),
      r.loanId = some lid → lid ≠ 0 →
      (env.loanItems lid = none →
        processTrackedRecord env t r = ({ r with loanId := none }, [])) ∧
      (∀ loan, env.loanItems lid = some loan → loan.canceled = true →
        processTrackedRecord env t r = ({ r with loanId := none }, [])) ∧
      (∀ loan, env.loanItems lid = some loan → loan.canceled = false →
        addrEq loan.owner env.signer = false →
        processTrackedRecord env t r = ({ r with loanId := none }, [])) := by
  intro env t r lid h1 h2
  refine ⟨?_, ?_, ?_⟩
  · intro h
    rw [processTrackedRecord_eq_withLoan env t r lid h1 h2]
    exact trackedWithLoan_fetchFail env t r lid h
  · intro loan h hc
    rw [processTrackedRecord_eq_withLoan env t r lid h1 h2]
    exact trackedWithLoan_canceled env t r lid loan h hc
  · intro loan h hc ho
    rw [processTrackedRecord_eq_withLoan env t r lid h1 h2]
    exact trackedWithLoan_foreignOwner env t r lid loan h hc ho

/-- Witness for the amended C3: a failed snapshot fetch clears the loan
id with no further action. -/
theorem C3_drift_clears_loanId_witness :
    processTrackedRecord wBaseEnv 5 rTracked7 =
      ({ rTracked7 with loanId := none }, []) :=
  (C3_drift_clears_loanId wBaseEnv 5 rTracked7 7 rfl (by decide)).1 rfl

/-! ## Claim C1: confirmed unbundling before relisting -/

/-- When the tracked stage reaches the Expired or Stale branch, the
cancel succeeds but no `isBundled` poll ever observes `false`, the record
comes back with `loanId` cleared and a trace of exactly the cancel call
and the unbundling wait (no create call). -/
theorem processTracked_timeout
    (env : PassEnv) (t : Nat) (r : RentalInfo) (lid : Nat)
    (loan : ContractLoan)
    (h1 : r.loanId = some lid) (h2 : lid ≠ 0)
    (h3 : env.loanItems lid = some loan) (h4 : loan.canceled = false)
    (h5 : addrEq loan.owner env.signer = true)
    (hbr : isLoanExpired env.nowMs loan.endTime = true ∨
      (isLoanExpired env.nowMs loan.endTime = false ∧
        loan.loanee = ZERO_ADDRESS ∧
        isLoanListedGreatThanDays env.nowMs r.timestamp
          PRICE_DROP_DAYS = true ∧
        MIN_PRICE_FOR_DECREASE < r.price))
    (hc : env.cancelOk lid = true)
    (hpoll : ∀ b ∈ env.polls r.nftAddress t, b ≠ some false) :
    processTrackedRecord env t r =
      ({ r with loanId := none },
       [Action.cancelCall lid,
        Action.waitUnbundledCall r.nftAddress t]) := by
  have hwf : waitForNftToBeUnbundled (env.polls r.nftAddress t) =
      false := waitForNftToBeUnbundled_eq_false _ hpoll
  rw [processTrackedRecord_eq_withLoan env t r lid h1 h2]
  rcases hbr with he | ⟨he, hrz, hst, hpx⟩
  · rw [trackedWithLoan_expired env t r lid loan h3 h4 h5 he]
    exact cancelAndRelist_waitFail env t r lid _ hc hwf
  · rw [trackedWithLoan_stale env t r lid loan h3 h4 h5 he hrz hst hpx]
    exact cancelAndRelist_waitFail env t r lid _ hc hwf

/-- The C1 counterexample environment: expired loan 7, successful cancel,
polls that never observe `false`, but the asset is no longer reported
bundled by the time discovery enumerates it in the wallet, and create
submissions succeed. -/
def envC1x : PassEnv :=
  { wBaseEnv with
      nowMs := 2000000
      loanItems := fun _ => some ⟨"0xa", ZERO_ADDRESS, 0, 1, false⟩
      cancelOk := fun _ => true
      polls := fun _ _ => [some true, none]
      createResult := fun _ _ _ => some ⟨some 9, some "u", none⟩
      walletNft := [5] }

/-- The C1 counterexample store: token 5 tracked with loan id 7. -/
def storeC1x : Store := [(5, rTracked7)]

/-- C1 counterexample: the claim says that when the post-cancel
`isBundled` polling never observes `false`, no create-listing is
attempted for that asset that pass; the tracked stage does stop after the
timed-out wait and clears `loanId`, but the discovery stage of the same
pass finds the wallet-held, now loan-id-less asset (reported unbundled by
its own fresh `isBundled` read) and submits a create-listing for it. -/
theorem C1_counterexample :
    envC1x.cancelOk 7 = true ∧
    waitForNftToBeUnbundled (envC1x.polls rTracked7.nftAddress 5) =
      false ∧
    countCreate (processRentals envC1x storeC1x).2
      NFT_CONTRACT_ADDRESS 5 = 1 := by decide

/-- C1 amended: (ordering) for a tracked record with a truthy loan id, a
create-listing call appears in its processing trace only when the cancel
call returned success and the subsequent `isBundled` polling observed
`false`, and then the trace is exactly cancel, then wait, then create;
(timeout, tracked stage) if the cancel succeeds but no poll ever observes
`false`, the tracked stage makes no create-listing call for the record,
its trace is exactly cancel then wait, and its `loanId` is cleared;
(timeout, whole pass) if additionally every `isBundled` view of the token
keeps reporting `true` (the asset genuinely still bundled, as in the
timeout scenario), no create-listing call for that asset occurs anywhere
in the pass and the final store has its `loanId` cleared — otherwise the
discovery stage may relist the wallet-held asset in the same pass. -/
theorem C1_cancel_before_relist_amended :
    (∀ (env : PassEnv) (t : Nat) (r : RentalInfo) (lid : Nat)
        (a : String) (t' : Nat) (p : Int),
      r.loanId = some lid → lid ≠ 0 →
      Action.createCall a t' p ∈ (processTrackedRecord env t r).2 →
      env.cancelOk lid = true ∧
      waitForNftToBeUnbundled (env.polls r.nftAddress t) = true ∧
      (∃ b ∈ env.polls r.nftAddress t, b = some false) ∧
      (processTrackedRecord env t r).2 =
        [Action.cancelCall lid,
         Action.waitUnbundledCall r.nftAddress t,
         Action.createCall r.nftAddress t p]) ∧
    (∀ (env : PassEnv) (t : Nat) (r : RentalInfo) (lid : Nat)
        (loan : ContractLoan),
      r.loanId = some lid → lid ≠ 0 →
      env.loanItems lid = some loan → loan.canceled = false →
      addrEq loan.owner env.signer = true →
      (isLoanExpired env.nowMs loan.endTime = true ∨
        (isLoanExpired env.nowMs loan.endTime = false ∧
          loan.loanee = ZERO_ADDRESS ∧
          isLoanListedGreatThanDays env.nowMs r.timestamp
            PRICE_DROP_DAYS = true ∧
          MIN_PRICE_FOR_DECREASE < r.price)) →
      env.cancelOk lid = true →
      (∀ b ∈ env.polls r.nftAddress t, b ≠ some false) →
      processTrackedRecord env t r =
        ({ r with loanId := none },
         [Action.cancelCall lid,
          Action.waitUnbundledCall r.nftAddress t])) ∧
    (∀ (env : PassEnv) (store : Store) (t : Nat) (r : RentalInfo)
        (lid : Nat) (loan : ContractLoan),
      (store.map Prod.fst).Nodup → (t, r) ∈ store →
      r.loanId = some lid → lid ≠ 0 →
      env.loanItems lid = some loan → loan.canceled = false →
      addrEq loan.owner env.signer = true →
      (isLoanExpired env.nowMs loan.endTime = true ∨
        (isLoanExpired env.nowMs loan.endTime = false ∧
          loan.loanee = ZERO_ADDRESS ∧
          isLoanListedGreatThanDays env.nowMs r.timestamp
            PRICE_DROP_DAYS = true ∧
          MIN_PRICE_FOR_DECREASE < r.price)) →
      env.cancelOk lid = true →
      (∀ b ∈ env.polls r.nftAddress t, b ≠ some false) →
      (∀ a, env.isBundled a t = true) →
      lookupRental (processRentals env store).1 t =
        some { r with loanId := none } ∧
      ∀ a p, Action.createCall a t p ∉ (processRentals env store).2) := by
  refine ⟨?_, ?_, ?_⟩
  · intro env t r lid a t' p h1 h2 hmem
    rw [processTrackedRecord_eq_withLoan env t r lid h1 h2] at hmem ⊢
    rcases trackedWithLoan_trace_spec env t r lid with hs | ⟨np, hs⟩
    · rw [hs] at hmem
      simp at hmem
    · rw [hs] at hmem ⊢
      rcases cancelAndRelist_trace_spec env t r lid np with
        ⟨hcf, hq⟩ | ⟨hcf, hwf, hq⟩ | ⟨hcf, hwf, hq⟩
      · rw [hq] at hmem
        simp at hmem
      · rw [hq] at hmem
        simp at hmem
      · rw [hq] at hmem
        simp at hmem
        obtain ⟨e1, e2, e3⟩ := hmem
        refine ⟨hcf, hwf, (waitForNftToBeUnbundled_iff _).mp hwf, ?_⟩
        rw [hq, e3]
  · intro env t r lid loan h1 h2 h3 h4 h5 hbr hc hpoll
    exact processTracked_timeout env t r lid loan h1 h2 h3 h4 h5 hbr hc
      hpoll
  · intro env store t r lid loan hnd hm h1 h2 h3 h4 h5 hbr hc hpoll hball
    have hrec := processTracked_timeout env t r lid loan h1 h2 h3 h4 h5
      hbr hc hpoll
    have hs1 : lookupRental (manageTrackedRentals env store).1 t =
        some { r with loanId := none } := by
      rw [lookupRental_manageTrackedRentals env store t r hnd hm, hrec]
    have hN := discoverList_bundled_preserve env NFT_CONTRACT_ADDRESS
      (manageTrackedRentals env store).1 env.walletNft t
      (hball NFT_CONTRACT_ADDRESS)
    have hV := discoverList_bundled_preserve env VOXIE_CONTRACT_ADDRESS
      (discoverList env NFT_CONTRACT_ADDRESS
        (manageTrackedRentals env store).1 env.walletNft).1
      env.walletVoxie t (hball VOXIE_CONTRACT_ADDRESS)
    constructor
    · show lookupRental (processRentals env store).1 t = _
      simp only [processRentals, discoverAndListUntrackedItems]
      rw [hV.1, hN.1, hs1]
    · intro a p hmem
      simp only [processRentals, discoverAndListUntrackedItems,
        List.mem_append] at hmem
      rcases hmem with hmem | hmem | hmem
      · obtain ⟨tk, rk, hk, hak⟩ :=
          mem_manageTrackedRentals_trace env store _ hmem
        have htk : t = tk :=
          processTrackedRecord_create_token env tk rk a t p hak
        subst htk
        have hrk : rk = r := record_eq_of_nodup store t r rk hnd hm hk
        subst hrk
        rw [hrec] at hak
        simp at hak
      · exact hN.2 a p hmem
      · exact hV.2 a p hmem

/-- The C1 ordering-witness environment: expired loan 7, successful
cancel, a poll observing unbundled, successful relist. -/
def envC1a : PassEnv :=
  { wBaseEnv with
      nowMs := 2000000
      loanItems := fun _ => some ⟨"0xa", ZERO_ADDRESS, 0, 1, false⟩
      cancelOk := fun _ => true
      polls := fun _ _ => [some false]
      createResult := fun _ _ _ => some ⟨some 9, some "u", none⟩ }

/-- The C1 timeout-witness environment: expired loan 7, successful
cancel, polls that never observe `false`, asset reported bundled
everywhere, held token enumerated. -/
def envC1b : PassEnv :=
  { wBaseEnv with
      nowMs := 2000000
      loanItems := fun _ => some ⟨"0xa", ZERO_ADDRESS, 0, 1, false⟩
      cancelOk := fun _ => true
      polls := fun _ _ => [some true, none]
      isBundled := fun _ _ => true
      walletNft := [5] }

/-- The C1 timeout-witness store. -/
def storeC1b : Store := [(5, rTracked7)]

/-- Witness for the amended C1 at concrete inputs: the ordering part on a
successful relist trace, the tracked-stage timeout part, and the
pass-wide timeout part on a pass whose polls never observe `false` while
the asset stays bundled. -/
theorem C1_cancel_before_relist_amended_witness :
    (processTrackedRecord envC1a 5 rTracked7).2 =
      [Action.cancelCall 7,
       Action.waitUnbundledCall rTracked7.nftAddress 5,
       Action.createCall rTracked7.nftAddress 5 4] ∧
    processTrackedRecord envC1b 5 rTracked7 =
      ({ rTracked7 with loanId := none },
       [Action.cancelCall 7,
        Action.waitUnbundledCall rTracked7.nftAddress 5]) ∧
    lookupRental (processRentals envC1b storeC1b).1 5 =
      some { rTracked7 with loanId := none } ∧
    Action.createCall NFT_CONTRACT_ADDRESS 5 4 ∉
      (processRentals envC1b storeC1b).2 :=
  ⟨(C1_cancel_before_relist_amended.1 envC1a 5 rTracked7 7
      NFT_CONTRACT_ADDRESS 5 4 rfl (by decide) (by decide)).2.2.2,
   C1_cancel_before_relist_amended.2.1 envC1b 5 rTracked7 7
      ⟨"0xa", ZERO_ADDRESS, 0, 1, false⟩ rfl (by decide) rfl rfl
      (by decide) (Or.inl (by decide)) rfl (by decide),
   (C1_cancel_before_relist_amended.2.2 envC1b storeC1b 5 rTracked7 7
      ⟨"0xa", ZERO_ADDRESS, 0, 1, false⟩ (by decide) (by decide) rfl
      (by decide) rfl rfl (by decide) (Or.inl (by decide)) rfl
      (by decide) (fun _ => rfl)).1,
   (C1_cancel_before_relist_amended.2.2 envC1b storeC1b 5 rTracked7 7
      ⟨"0xa", ZERO_ADDRESS, 0, 1, false⟩ (by decide) (by decide) rfl
      (by decide) rfl rfl (by decide) (Or.inl (by decide)) rfl
      (by decide) (fun _ => rfl)).2 NFT_CONTRACT_ADDRESS 4⟩

/-! ## Claim C9: bundled assets are skipped, flagged and unmutated -/

/-- The C9 record: tracked without a loan id. -/
def rC9w : RentalInfo := { price := 4, nftAddress := "" }

/-- The C9 counterexample environment: the NFT collection reports token 5
bundled (the tracked stage duly warns and skips it), but discovery also
enumerates the same numeric id 5 in the voxie wallet, where the voxie
collection's own `isBundled` read reports `false`. -/
def envC9x : PassEnv :=
  { wBaseEnv with
      isBundled := fun a _ => a == NFT_CONTRACT_ADDRESS
      ownerOfNft := fun _ => some "0xa"
      createResult := fun _ _ _ => some ⟨some 9, some "u", none⟩
      walletVoxie := [5] }

/-- The C9 counterexample store: token 5 tracked without a loan id. -/
def storeC9x : Store := [(5, rC9w)]

/-- C9 counterexample: the claim says a tracked record without a loan id
whose asset `isBundled` reports `true` gets no create-listing call and no
store mutation for that token; the store is keyed by bare numeric token
id, so when the same id is also enumerated under the other collection
(whose own `isBundled` read says `false`), the discovery stage submits a
create-listing carrying that token id and overwrites the token's store
entry. -/
theorem C9_counterexample :
    envC9x.isBundled NFT_CONTRACT_ADDRESS 5 = true ∧
    natTruthy rC9w.loanId = false ∧
    countCreate (processRentals envC9x storeC9x).2
      VOXIE_CONTRACT_ADDRESS 5 = 1 ∧
    lookupRental (processRentals envC9x storeC9x).1 5 ≠ some rC9w := by
  decide

/-- C9 amended: if every `isBundled` view of a token id reports `true` —
so that, in particular, the same numeric id is not simultaneously held
unbundled under the other collection, against which the bare-token-id
store key offers no protection — then for an asset that would otherwise
be listed (a tracked record without a truthy loan id, or a wallet-held
token absent from the store) the pass makes no create-listing call for
that token, leaves its store entry exactly as it was, and emits the
bundled-skip warning (from the tracked stage when the owned record is
probed, and from the discovery stage when the token is enumerated in a
wallet). -/
theorem C9_bundled_asset_skipped :
    ∀ (env : PassEnv) (store : Store) (t : Nat),
      (store.map Prod.fst).Nodup →
      (∀ a, env.isBundled a t = true) →
      (∀ rr, lookupRental store t = some rr →
        natTruthy rr.loanId = false) →
      (∀ a p, Action.createCall a t p ∉ (processRentals env store).2) ∧
      lookupRental (processRentals env store).1 t =
        lookupRental store t ∧
      (∀ r owner addr, lookupRental store t = some r →
        probeOwner env t = some (owner, addr) →
        addrEq owner env.signer = true →
        Action.bundledSkipWarn t ∈ (processRentals env store).2) ∧
      ((t ∈ env.walletNft ∨ t ∈ env.walletVoxie) →
        Action.bundledSkipWarn t ∈ (processRentals env store).2) := by
  intro env store t hnd hball hnt
  have hshape : ∀ r, lookupRental store t = some r →
      processTrackedRecord env t r = (r, []) ∨
      processTrackedRecord env t r = (r, [Action.bundledSkipWarn t]) := by
    intro r hr
    rw [processTrackedRecord_eq_noLoan env t r (hnt r hr)]
    rcases trackedNoLoan_trace_spec env t r with (hs | hs) |
      ⟨o, ad, hpo, ho, hb, _⟩
    · exact Or.inl hs
    · exact Or.inr hs
    · rw [hball ad] at hb
      cases hb
  have hs1 : lookupRental (manageTrackedRentals env store).1 t =
      lookupRental store t := by
    cases hr : lookupRental store t with
    | none => exact lookupRental_manageTrackedRentals_none env store t hr
    | some r =>
        rw [lookupRental_manageTrackedRentals env store t r hnd
          (mem_of_lookupRental store t r hr)]
        rcases hshape r hr with hsp | hsp <;> rw [hsp]
  have hnc1 : ∀ a p,
      Action.createCall a t p ∉ (manageTrackedRentals env store).2 := by
    intro a p hmem
    obtain ⟨tk, rk, hk, hak⟩ :=
      mem_manageTrackedRentals_trace env store _ hmem
    have htk : t = tk :=
      processTrackedRecord_create_token env tk rk a t p hak
    subst htk
    have hr : lookupRental store t = some rk :=
      lookupRental_of_mem store t rk hnd hk
    rcases hshape rk hr with hsp | hsp <;> rw [hsp] at hak <;>
      simp at hak
  have hN := discoverList_bundled_preserve env NFT_CONTRACT_ADDRESS
    (manageTrackedRentals env store).1 env.walletNft t (hball _)
  have hV := discoverList_bundled_preserve env VOXIE_CONTRACT_ADDRESS
    (discoverList env NFT_CONTRACT_ADDRESS
      (manageTrackedRentals env store).1 env.walletNft).1
    env.walletVoxie t (hball _)
  refine ⟨?_, ?_, ?_, ?_⟩
  · intro a p hmem
    simp only [processRentals, discoverAndListUntrackedItems,
      List.mem_append] at hmem
    rcases hmem with hmem | hmem | hmem
    · exact hnc1 a p hmem
    · exact hN.2 a p hmem
    · exact hV.2 a p hmem
  · show lookupRental (processRentals env store).1 t = _
    simp only [processRentals, discoverAndListUntrackedItems]
    rw [hV.1, hN.1, hs1]
  · intro r owner addr hr hpo ho
    have hwarn : processTrackedRecord env t r =
        (r, [Action.bundledSkipWarn t]) := by
      rw [processTrackedRecord_eq_noLoan env t r (hnt r hr)]
      exact trackedNoLoan_bundled env t r owner addr hpo ho (hball addr)
    have hwmem : Action.bundledSkipWarn t ∈
        (processTrackedRecord env t r).2 := by
      rw [hwarn]
      simp
    have h1 : Action.bundledSkipWarn t ∈
        (manageTrackedRentals env store).2 :=
      manageTrackedRentals_trace_of_mem env store t r _
        (mem_of_lookupRental store t r hr) hwmem
    simp only [processRentals, discoverAndListUntrackedItems,
      List.mem_append]
    exact Or.inl h1
  · intro hmem
    have hnt1 : ∀ ru,
        lookupRental (manageTrackedRentals env store).1 t = some ru →
        natTruthy ru.loanId = false := by
      intro ru hru
      rw [hs1] at hru
      exact hnt ru hru
    rcases hmem with hmw | hmw
    · have hw := discoverList_warn env NFT_CONTRACT_ADDRESS
        (manageTrackedRentals env store).1 env.walletNft t (hball _)
        hnt1 hmw
      simp only [processRentals, discoverAndListUntrackedItems,
        List.mem_append]
      exact Or.inr (Or.inl hw)
    · have hnt2 : ∀ ru,
          lookupRental (discoverList env NFT_CONTRACT_ADDRESS
            (manageTrackedRentals env store).1 env.walletNft).1 t =
            some ru →
          natTruthy ru.loanId = false := by
        intro ru hru
        rw [hN.1, hs1] at hru
        exact hnt ru hru
      have hw := discoverList_warn env VOXIE_CONTRACT_ADDRESS _
        env.walletVoxie t (hball _) hnt2 hmw
      simp only [processRentals, discoverAndListUntrackedItems,
        List.mem_append]
      exact Or.inr (Or.inr hw)

/-- The C9 witness environment: every bundled-status read reports true;
the signer owns token 5 which is also enumerated in the NFT wallet. -/
def envC9w : PassEnv :=
  { wBaseEnv with
      isBundled := fun _ _ => true
      ownerOfNft := fun _ => some "0xa"
      walletNft := [5] }

/-- The C9 witness store. -/
def storeC9w : Store := [(5, rC9w)]

/-- Witness for C9 at concrete inputs. -/
theorem C9_bundled_asset_skipped_witness :
    Action.createCall NFT_CONTRACT_ADDRESS 5 4 ∉
      (processRentals envC9w storeC9w).2 ∧
    lookupRental (processRentals envC9w storeC9w).1 5 =
      lookupRental storeC9w 5 ∧
    Action.bundledSkipWarn 5 ∈ (processRentals envC9w storeC9w).2 :=
  ⟨(C9_bundled_asset_skipped envC9w storeC9w 5 (by decide)
      (fun _ => rfl)
      (fun rr h => by cases h; rfl)).1 NFT_CONTRACT_ADDRESS 4,
   (C9_bundled_asset_skipped envC9w storeC9w 5 (by decide)
      (fun _ => rfl) (fun rr h => by cases h; rfl)).2.1,
   (C9_bundled_asset_skipped envC9w storeC9w 5 (by decide)
      (fun _ => rfl) (fun rr h => by cases h; rfl)).2.2.1 rC9w "0xa"
      NFT_CONTRACT_ADDRESS rfl rfl (by decide)⟩

/-! ## Claim C2: a second pass over unchanged chain state is a no-op -/

/-- C2: when every tracked record with a loan id is observed as a live,
unexpired, unrented, not-yet-stale loan owned by the signer (what a
successful first pass leaves behind when the chain does not change and
the second pass runs promptly), every record without a loan id is not
listable (not owned, or already bundled on-chain), and every wallet-held
token is tracked with a truthy loan id under the collection it is found
in, then the second pass performs no create-listing and no cancel
submission and leaves the store exactly as it was. -/
theorem C2_second_pass_idempotent :
    ∀ (env : PassEnv) (store : Store),
      (∀ t r, (t, r) ∈ store →
        (∀ lid, r.loanId = some lid → lid ≠ 0 →
          ∃ loan, env.loanItems lid = some loan ∧
            loan.canceled = false ∧
            addrEq loan.owner env.signer = true ∧
            loan.loanee = ZERO_ADDRESS ∧
            isLoanExpired env.nowMs loan.endTime = false ∧
            (isLoanListedGreatThanDays env.nowMs r.timestamp
              PRICE_DROP_DAYS = false ∨
              r.price ≤ MIN_PRICE_FOR_DECREASE)) ∧
        (natTruthy r.loanId = false →
          probeOwner env t = none ∨
          ∃ owner addr, probeOwner env t = some (owner, addr) ∧
            (addrEq owner env.signer = false ∨
              env.isBundled addr t = true))) →
      (∀ u ∈ env.walletNft, ∃ ru, lookupRental store u = some ru ∧
        natTruthy ru.loanId = true ∧
        ru.nftAddress = NFT_CONTRACT_ADDRESS) →
      (∀ u ∈ env.walletVoxie, ∃ ru, lookupRental store u = some ru ∧
        natTruthy ru.loanId = true ∧
        ru.nftAddress = VOXIE_CONTRACT_ADDRESS) →
      (processRentals env store).1 = store ∧
      (∀ a u p,
        Action.createCall a u p ∉ (processRentals env store).2) ∧
      (∀ l, Action.cancelCall l ∉ (processRentals env store).2) := by
  intro env store hrec hwn hwv
  have hstep : ∀ t r, (t, r) ∈ store →
      processTrackedRecord env t r = (r, []) ∨
      processTrackedRecord env t r = (r, [Action.bundledSkipWarn t]) := by
    intro t r hm
    obtain ⟨hA, hB⟩ := hrec t r hm
    by_cases htr : natTruthy r.loanId = true
    · left
      have hlid : ∃ lid, r.loanId = some lid ∧ lid ≠ 0 := by
        cases hl : r.loanId with
        | none =>
            rw [hl] at htr
            simp [natTruthy] at htr
        | some lid =>
            refine ⟨lid, rfl, ?_⟩
            rw [hl] at htr
            simpa [natTruthy] using htr
      obtain ⟨lid, hl, h0⟩ := hlid
      obtain ⟨loan, h3, h4, h5, hrz, he, hq⟩ := hA lid hl h0
      rw [processTrackedRecord_eq_withLoan env t r lid hl h0]
      apply trackedWithLoan_quiet env t r lid loan h3 h4 h5 he
      rcases hq with hq | hq
      · exact Or.inr (Or.inl hq)
      · exact Or.inr (Or.inr hq)
    · have hfalse : natTruthy r.loanId = false := by simpa using htr
      rw [processTrackedRecord_eq_noLoan env t r hfalse]
      rcases hB hfalse with hpo | ⟨owner, addr, hpo, hcase⟩
      · exact Or.inl (trackedNoLoan_noOwner env t r hpo)
      · rcases hcase with ho | hb
        · exact Or.inl
            (trackedNoLoan_foreignOwner env t r owner addr hpo ho)
        · by_cases ho : addrEq owner env.signer = true
          · exact Or.inr
              (trackedNoLoan_bundled env t r owner addr hpo ho hb)
          · exact Or.inl (trackedNoLoan_foreignOwner env t r owner addr
              hpo (by simpa using ho))
  have hid : (manageTrackedRentals env store).1 = store := by
    apply manageTrackedRentals_id
    intro t r hm
    rcases hstep t r hm with hsp | hsp <;> rw [hsp]
  have hskipN := discoverList_skip env NFT_CONTRACT_ADDRESS store
    env.walletNft hwn
  have hskipV := discoverList_skip env VOXIE_CONTRACT_ADDRESS store
    env.walletVoxie hwv
  refine ⟨?_, ?_, ?_⟩
  · simp only [processRentals, discoverAndListUntrackedItems, hid,
      hskipN, hskipV]
  · intro a u p hmem
    simp only [processRentals, discoverAndListUntrackedItems, hid,
      hskipN, hskipV, List.append_nil, List.mem_append,
      List.not_mem_nil, or_false] at hmem
    obtain ⟨tk, rk, hk, hak⟩ :=
      mem_manageTrackedRentals_trace env store _ hmem
    rcases hstep tk rk hk with hsp | hsp <;> rw [hsp] at hak <;>
      simp at hak
  · intro l hmem
    simp only [processRentals, discoverAndListUntrackedItems, hid,
      hskipN, hskipV, List.append_nil, List.mem_append,
      List.not_mem_nil, or_false] at hmem
    obtain ⟨tk, rk, hk, hak⟩ :=
      mem_manageTrackedRentals_trace env store _ hmem
    rcases hstep tk rk hk with hsp | hsp <;> rw [hsp] at hak <;>
      simp at hak

/-- The C2 witness record: listed in the (virtual) first pass, listed-at
1000 s. -/
def rC2w : RentalInfo :=
  { price := 5, nftAddress := NFT_CONTRACT_ADDRESS, loanId := some 7,
    bundleUUID := some "b", timestamp := some 1000 }

/-- The C2 witness environment: loan 7 live, unexpired, unrented; the
wallet holds nothing (every asset is bundled into its listing). -/
def envC2w : PassEnv :=
  { wBaseEnv with
      nowMs := 5000000
      loanItems := fun _ => some ⟨"0xa", ZERO_ADDRESS, 0, 999999, false⟩ }

/-- The C2 witness store. -/
def storeC2w : Store := [(5, rC2w)]

/-- Witness for C2 at concrete inputs. -/
theorem C2_second_pass_idempotent_witness :
    (processRentals envC2w storeC2w).1 = storeC2w ∧
    Action.createCall NFT_CONTRACT_ADDRESS 5 5 ∉
      (processRentals envC2w storeC2w).2 ∧
    Action.cancelCall 7 ∉ (processRentals envC2w storeC2w).2 := by
  have hmain := C2_second_pass_idempotent envC2w storeC2w
    (by
      intro t r hm
      have h := List.mem_singleton.mp hm
      injection h with h1 h2
      subst h1
      subst h2
      constructor
      · intro lid hl h0
        have hl7 : some 7 = some lid := hl
        injection hl7 with hl7
        subst hl7
        exact ⟨⟨"0xa", ZERO_ADDRESS, 0, 999999, false⟩, rfl, rfl,
          by decide, rfl, by decide, Or.inl (by decide)⟩
      · intro hf
        exact absurd hf (by decide))
    (by intro u hu; simp [envC2w, wBaseEnv] at hu)
    (by intro u hu; simp [envC2w, wBaseEnv] at hu)
  exact ⟨hmain.1, hmain.2.1 NFT_CONTRACT_ADDRESS 5 5, hmain.2.2 7⟩

/-! ## Claim C4: one create-listing attempt per eligible record -/

theorem countCreate_eq_zero_of_not_mem (l : List Action) (a : String)
    (t : Nat) (h : ∀ a' p, Action.createCall a' t p ∉ l) :
    countCreate l a t = 0 :=
  countCreate_eq_zero l a t (fun a' _ p hm hcon => h a' p (hcon.2 ▸ hm))

theorem countCreate_discoverList_other (env : PassEnv) (addr : String)
    (s : Store) (ts : List Nat) (a : String) (t : Nat) (hne : addr ≠ a) :
    countCreate (discoverList env addr s ts).2 a t = 0 := by
  apply countCreate_eq_zero
  intro a' t' p hm hcon
  obtain ⟨ha', _⟩ := discoverList_create_mem env addr s ts a' t' p hm
  exact hne (ha'.symm.trans hcon.1)

/-- The C4 counterexample environment: the signer owns token 5 (also
enumerated in the wallet), nothing is bundled, and every create
submission returns the failure object without a loan id. -/
def envC4x : PassEnv := { envC10w with walletNft := [5] }

/-- The C4 counterexample store: token 5 tracked without a loan id. -/
def storeC4x : Store := [(5, { price := 4, nftAddress := "" })]

/-- C4 counterexample: the claim says a pass produces exactly one
create-listing attempt for a tracked, owned, unbundled record without a
loan id; when the tracked-stage attempt fails to yield a loan id, the
discovery stage attempts the same asset again in the same pass, giving
two create-listing calls. -/
theorem C4_counterexample :
    countCreate (processRentals envC4x storeC4x).2
      NFT_CONTRACT_ADDRESS 5 = 2 := by decide

/-- C4 amended: for a tracked record without a truthy loan id whose asset
is owned by the wallet and not bundled, the pass makes exactly one
create-listing call for that asset provided the tracked-stage attempt
succeeds (returns a truthy loan id); the side condition rules out the
same numeric token id being separately enumerated (and relisted) under
the other collection before its own collection is scanned. -/
theorem C4_exactly_one_create :
    ∀ (env : PassEnv) (store : Store) (t : Nat) (r : RentalInfo)
      (owner a : String) (d : CreateOutcome),
      (store.map Prod.fst).Nodup → (t, r) ∈ store →
      natTruthy r.loanId = false →
      probeOwner env t = some (owner, a) →
      addrEq owner env.signer = true →
      env.isBundled a t = false →
      env.createResult a t r.price = some d →
      natTruthy d.loanId = true →
      (a = NFT_CONTRACT_ADDRESS ∨ t ∉ env.walletNft ∨
        env.isBundled NFT_CONTRACT_ADDRESS t = true) →
      countCreate (processRentals env store).2 a t = 1 := by
  intro env store t r owner a d hnd hm h1 hpo ho hb hd htd hside
  have hrec : processTrackedRecord env t r =
      ({ r with
          nftAddress := a
          loanId := d.loanId
          bundleUUID := d.uuid
          timestamp := some (env.nowMs / 1000) },
       [Action.createCall a t r.price]) := by
    rw [processTrackedRecord_eq_noLoan env t r h1]
    exact trackedNoLoan_creates env t r owner a d hpo ho hb hd
  have hc1 : countCreate (manageTrackedRentals env store).2 a t = 1 := by
    rw [countCreate_manageTrackedRentals env store a t r hnd hm, hrec]
    simp [countCreate, List.countP_cons]
  have hlk : lookupRental (manageTrackedRentals env store).1 t =
      some { r with
          nftAddress := a
          loanId := d.loanId
          bundleUUID := d.uuid
          timestamp := some (env.nowMs / 1000) } := by
    rw [lookupRental_manageTrackedRentals env store t r hnd hm, hrec]
  rcases probeOwner_addr env t owner a hpo with haN | haV
  · subst haN
    have hInv := discoverList_entry_inv env NFT_CONTRACT_ADDRESS
      (manageTrackedRentals env store).1 env.walletNft t _ hlk htd rfl
    have hn0 : countCreate (discoverList env NFT_CONTRACT_ADDRESS
        (manageTrackedRentals env store).1 env.walletNft).2
        NFT_CONTRACT_ADDRESS t = 0 :=
      countCreate_eq_zero_of_not_mem _ _ _ hInv.2
    have hv0 : countCreate (discoverList env VOXIE_CONTRACT_ADDRESS
        (discoverList env NFT_CONTRACT_ADDRESS
          (manageTrackedRentals env store).1 env.walletNft).1
        env.walletVoxie).2 NFT_CONTRACT_ADDRESS t = 0 :=
      countCreate_discoverList_other env VOXIE_CONTRACT_ADDRESS _
        env.walletVoxie NFT_CONTRACT_ADDRESS t (by decide)
    simp only [processRentals, discoverAndListUntrackedItems,
      countCreate_append]
    rw [hc1, hn0, hv0]
  · subst haV
    have hside2 : t ∉ env.walletNft ∨
        env.isBundled NFT_CONTRACT_ADDRESS t = true := by
      rcases hside with hx | hx | hx
      · exact absurd hx (by decide)
      · exact Or.inl hx
      · exact Or.inr hx
    have hpres : lookupRental (discoverList env NFT_CONTRACT_ADDRESS
        (manageTrackedRentals env store).1 env.walletNft).1 t =
        some { r with
            nftAddress := VOXIE_CONTRACT_ADDRESS
            loanId := d.loanId
            bundleUUID := d.uuid
            timestamp := some (env.nowMs / 1000) } := by
      rcases hside2 with hnm | hbN
      · rw [discoverList_lookup_not_mem env NFT_CONTRACT_ADDRESS _
          env.walletNft t hnm, hlk]
      · rw [(discoverList_bundled_preserve env NFT_CONTRACT_ADDRESS _
          env.walletNft t hbN).1, hlk]
    have hInv := discoverList_entry_inv env VOXIE_CONTRACT_ADDRESS _
      env.walletVoxie t _ hpres htd rfl
    have hn0 : countCreate (discoverList env NFT_CONTRACT_ADDRESS
        (manageTrackedRentals env store).1 env.walletNft).2
        VOXIE_CONTRACT_ADDRESS t = 0 :=
      countCreate_discoverList_other env NFT_CONTRACT_ADDRESS _
        env.walletNft VOXIE_CONTRACT_ADDRESS t (by decide)
    have hv0 : countCreate (discoverList env VOXIE_CONTRACT_ADDRESS
        (discoverList env NFT_CONTRACT_ADDRESS
          (manageTrackedRentals env store).1 env.walletNft).1
        env.walletVoxie).2 VOXIE_CONTRACT_ADDRESS t = 0 :=
      countCreate_eq_zero_of_not_mem _ _ _ hInv.2
    simp only [processRentals, discoverAndListUntrackedItems,
      countCreate_append]
    rw [hc1, hn0, hv0]

/-- The C4 witness environment: like the counterexample, but the create
submission succeeds with loan id 9. -/
def envC4w : PassEnv :=
  { envC4x with createResult := fun _ _ _ => some ⟨some 9, some "u", none⟩ }

/-- Witness for the amended C4 at concrete inputs. -/
theorem C4_exactly_one_create_witness :
    countCreate (processRentals envC4w storeC4x).2
      NFT_CONTRACT_ADDRESS 5 = 1 :=
  C4_exactly_one_create envC4w storeC4x 5 { price := 4, nftAddress := "" }
    "0xA" NFT_CONTRACT_ADDRESS ⟨some 9, some "u", none⟩ (by decide)
    (by decide) rfl rfl (by decide) rfl rfl (by decide) (Or.inl rfl)

end Voxies
